import Mathlib

/-!
# Prusa-Firmware-MMU: TMC2130 stepper driver, configuration, queue and cut automaton

Shallow embedding of `src/hal/avr/tmc2130.cpp` and of the constants of
`src/config/config.h`, followed by the circular buffer and the `CutFilament` automaton that
the unit tests under `tests/unit` exercise.

* Machine integers are natural numbers, reduced explicitly where the C++ code
  stores them into a narrower type (`uint8_t`, `uint32_t`).
* The hardware abstraction layer called by the driver (`hal::gpio`, `hal::spi`,
  `hal::shr16`) is not part of the translated sources.  It is a parameter
  (`Hal`) acting on an arbitrary device state, and every call made through it
  is recorded, in program order, in the `trace` of the `World`.
* The enumerator values of `enum class Registers` (declared in `tmc2130.h`) and
  the constant `config::tmc2130_coolConf` (not defined in `config.h`) are
  parameters as well.
-/

namespace hal
namespace tmc2130

/-! ## Machine integers -/

/-- Conversion to `uint8_t`. -/
def u8 (n : Nat) : Nat := n % 256

/-- Conversion to `uint32_t`. -/
def u32 (n : Nat) : Nat := n % 4294967296

/-! ## Data model -/

/-- Operating profile of the driver (`enum MotorMode`). -/
inductive MotorMode where
  | Stealth
  | Normal
deriving DecidableEq

/-- Currents of one motor (`struct MotorCurrents`): `vSense` is a flag, `iRun` and `iHold`
are `uint8_t`. -/
structure MotorCurrents where
  vSense : Bool
  iRun : Nat
  iHold : Nat
deriving DecidableEq

/-- The fields of `struct MotorParams` read by the driver: shift register index, chip select,
step and stallguard pins and the microstep code `uSteps` (`uint8_t`). -/
structure MotorParams where
  idx : Nat
  csPin : Nat
  stepPin : Nat
  sgPin : Nat
  uSteps : Nat
deriving DecidableEq

/-- Modelled from the spec: the declaration of `struct ErrorFlags` (tmc2130.h) is missing from the
sources.  The spec's data model lists the latched error flags reset-detected, under-voltage /
charge-pump fault, short-to-ground, over-temperature-warning and over-temperature; each flag is
a boolean, and an integer assigned to a flag is converted as C++ converts to `bool`
(non-zero is `true`). -/
structure ErrorFlags where
  reset_flag : Bool
  uv_cp : Bool
  s2g : Bool
  otpw : Bool
  ot : Bool
deriving DecidableEq

/-- Member variables of `class TMC2130`; `sg_counter` is a `uint8_t`
(see the note in `ClearStallguard`). -/
structure TMC2130 where
  mode : MotorMode
  currents : MotorCurrents
  errorFlags : ErrorFlags
  enabled : Bool
  sg_counter : Nat
deriving DecidableEq

/-- Numeric values of the enumerators of `enum class Registers` used by the driver.  They are
declared in tmc2130.h and therefore parameters here. -/
structure Registers where
  GCONF : Nat
  GSTAT : Nat
  IOIN : Nat
  IHOLD_IRUN : Nat
  TPOWERDOWN : Nat
  TPWMTHRS : Nat
  TCOOLTHRS : Nat
  CHOPCONF : Nat
  COOLCONF : Nat
  DRV_STATUS : Nat
  PWMCONF : Nat
deriving DecidableEq

/-! ## Hardware abstraction layer -/

/-- The three `GPIO_InitTypeDef` values passed to `gpio::Init` by the driver. -/
inductive GpioSetup where
  | outputHigh
  | outputLow
  | inputPullUp
deriving DecidableEq

/-- One call into the hardware abstraction layer. -/
inductive HalCall where
  | gpioInit (pin : Nat) (cfg : GpioSetup)
  | writePin (pin : Nat) (high : Bool)
  | spiTxRx (sent : Nat)
  | setTMCDir (idx : Nat) (enabled : Bool)
deriving DecidableEq

/-- Behaviour of the hardware behind the abstraction layer, over a device state `D`. -/
structure Hal (D : Type) where
  gpioInit : D → Nat → GpioSetup → D
  writePin : D → Nat → Bool → D
  spiTxRx : D → Nat → D × Nat
  setTMCDir : D → Nat → Bool → D

/-- Device state together with the calls made so far (oldest first). -/
structure World (D : Type) where
  dev : D
  trace : List HalCall

/-- Call of `gpio::Init(pin, cfg)`. -/
def gpioInit {D : Type} (hal : Hal D) (w : World D) (pin : Nat) (cfg : GpioSetup) : World D :=
  ⟨hal.gpioInit w.dev pin cfg, w.trace ++ [HalCall.gpioInit pin cfg]⟩

/-- Call of `gpio::WritePin(pin, level)`; `high = true` is `Level::high`. -/
def writePin {D : Type} (hal : Hal D) (w : World D) (pin : Nat) (high : Bool) : World D :=
  ⟨hal.writePin w.dev pin high, w.trace ++ [HalCall.writePin pin high]⟩

/-- Call of `shr16.SetTMCDir(idx, enabled)`. -/
def setTMCDir {D : Type} (hal : Hal D) (w : World D) (idx : Nat) (enabled : Bool) : World D :=
  ⟨hal.setTMCDir w.dev idx enabled, w.trace ++ [HalCall.setTMCDir idx enabled]⟩

/-- Call of `spi::TxRx(spi, b)`: the world afterwards and the byte received. -/
def spiTxRx {D : Type} (hal : Hal D) (w : World D) (b : Nat) : World D × Nat :=
  (⟨(hal.spiTxRx w.dev b).1, w.trace ++ [HalCall.spiTxRx b]⟩, u8 (hal.spiTxRx w.dev b).2)

/-! ## Register transport -/

/-- The `for` loop of `_spi_tx_rx`: each element of `pData` is transmitted in turn and
overwritten by the byte received for it. -/
def spiLoop {D : Type} (hal : Hal D) : World D → List Nat → World D × List Nat
  | w, [] => (w, [])
  | w, b :: bs =>
    let r := spiTxRx hal w b
    let rest := spiLoop hal r.1 bs
    (rest.1, r.2 :: rest.2)

/-- Embedding of `TMC2130::_spi_tx_rx`: chip select low, the five bytes, chip select high. -/
def _spi_tx_rx {D : Type} (hal : Hal D) (params : MotorParams) (w : World D)
    (pData : List Nat) : World D × List Nat :=
  let w1 := writePin hal w params.csPin false
  let r := spiLoop hal w1 pData
  (writePin hal r.1 params.csPin true, r.2)

/-- The big-endian decoding at the end of `ReadRegister`. -/
def be32 (b1 b2 b3 b4 : Nat) : Nat :=
  u32 (b1 <<< 24) ||| u32 (b2 <<< 16) ||| u32 (b3 <<< 8) ||| u32 b4

/-- Embedding of `TMC2130::ReadRegister` (`_handle_spi_status` has an empty body). -/
def ReadRegister {D : Type} (hal : Hal D) (params : MotorParams) (w : World D)
    (reg : Nat) : World D × Nat :=
  let pData := [u8 reg, 0, 0, 0, 0]
  let r1 := _spi_tx_rx hal params w pData
  let pData1 := r1.2.set 0 0
  let r2 := _spi_tx_rx hal params r1.1 pData1
  (r2.1, be32 (r2.2.getD 1 0) (r2.2.getD 2 0) (r2.2.getD 3 0) (r2.2.getD 4 0))

/-- Embedding of `TMC2130::WriteRegister` (`_handle_spi_status` has an empty body). -/
def WriteRegister {D : Type} (hal : Hal D) (params : MotorParams) (w : World D)
    (reg : Nat) (data : Nat) : World D :=
  let pData := [u8 (u8 reg ||| 0x80), u8 (data >>> 24), u8 (data >>> 16), u8 (data >>> 8), u8 data]
  (_spi_tx_rx hal params w pData).1

/-! ## Configuration constants (`src/config/config.h`) -/

/-- Constant `config::tmc2130_coolStepThreshold`. -/
def tmc2130_coolStepThreshold : Nat := 5000

/-- Constant `config::tmc2130_PWM_AMPL`. -/
def tmc2130_PWM_AMPL : Nat := 240

/-- Constant `config::tmc2130_PWM_GRAD`. -/
def tmc2130_PWM_GRAD : Nat := 4

/-- Constant `config::tmc2130_PWM_FREQ`. -/
def tmc2130_PWM_FREQ : Nat := 2

/-- Constant `config::tmc2130_PWM_AUTOSCALE`. -/
def tmc2130_PWM_AUTOSCALE : Nat := 1

/-! ## Driver operations -/

/-- Embedding of `TMC2130::SetMode`. -/
def SetMode {D : Type} (hal : Hal D) (regs : Registers) (params : MotorParams)
    (w : World D) (s : TMC2130) (mode : MotorMode) : World D × TMC2130 :=
  (WriteRegister hal params w regs.TPWMTHRS (if mode = MotorMode.Stealth then 70 else 0xFFF00),
    { s with mode := mode })

/-- Embedding of `TMC2130::SetCurrents`. -/
def SetCurrents {D : Type} (hal : Hal D) (regs : Registers) (params : MotorParams)
    (w : World D) (s : TMC2130) (currents : MotorCurrents) : World D × TMC2130 :=
  let ihold_irun := u32 ((currents.iHold &&& 0x1F) <<< 0)
    ||| u32 ((currents.iRun &&& 0x1F) <<< 8)
    ||| u32 ((15 &&& 0x0F) <<< 16)
  (WriteRegister hal params w regs.IHOLD_IRUN ihold_irun, { s with currents := currents })

/-- The value `4 * (1 << (8 - params.uSteps)) - 1` of type `int` that occurs in
`ClearStallguard` and in `Isr` (defined for `uSteps ≤ 8`; the C++ shift count is negative
otherwise). -/
def fullStepTicks (params : MotorParams) : Nat :=
  4 * (1 <<< (8 - params.uSteps)) - 1

/-- Embedding of `TMC2130::ClearStallguard`.  The source notes
`maximum resolution right now is x256/4 (uint8_t / 4)`: the value is stored into the
`uint8_t` member `sg_counter`. -/
def ClearStallguard (params : MotorParams) (s : TMC2130) : TMC2130 :=
  { s with sg_counter := u8 (fullStepTicks params) }

/-- Embedding of `TMC2130::SetEnabled`. -/
def SetEnabled {D : Type} (hal : Hal D) (params : MotorParams)
    (w : World D) (s : TMC2130) (enabled : Bool) : World D × TMC2130 :=
  let w1 := setTMCDir hal w params.idx enabled
  let s1 := if s.enabled ≠ enabled then ClearStallguard params s else s
  (w1, { s1 with enabled := enabled })

/-- Embedding of `TMC2130::CheckForErrors`: the worlds and driver state afterwards and the
returned value. -/
def CheckForErrors {D : Type} (hal : Hal D) (regs : Registers) (params : MotorParams)
    (w : World D) (s : TMC2130) : (World D × TMC2130) × Bool :=
  let r1 := ReadRegister hal params w regs.GSTAT
  let GSTAT := r1.2
  let r2 := ReadRegister hal params r1.1 regs.DRV_STATUS
  let DRV_STATUS := r2.2
  let errorFlags : ErrorFlags :=
    { reset_flag := s.errorFlags.reset_flag || (GSTAT &&& (1 <<< 0) != 0)
      uv_cp := GSTAT &&& (1 <<< 2) != 0
      s2g := DRV_STATUS &&& (3 <<< 27) != 0
      otpw := DRV_STATUS &&& (1 <<< 26) != 0
      ot := DRV_STATUS &&& (1 <<< 25) != 0 }
  ((r2.1, { s with errorFlags := errorFlags }), GSTAT != 0 || errorFlags.reset_flag)

/-- Embedding of `TMC2130::Isr`; `diag` is the value returned by `SampleDiag(params)`, the
stall signal sampled at this tick. -/
def Isr (params : MotorParams) (diag : Bool) (s : TMC2130) : TMC2130 :=
  if s.sg_counter ≠ 0 then
    if diag then { s with sg_counter := u8 (s.sg_counter - 1) }
    else if s.sg_counter < fullStepTicks params then { s with sg_counter := u8 (s.sg_counter + 1) }
    else s
  else s

/-- The word `chopconf` computed by `Init`. -/
def chopconf (params : MotorParams) (currents : MotorCurrents) : Nat :=
  u32 ((3 &&& 0x0F) <<< 0)
    ||| u32 ((5 &&& 0x07) <<< 4)
    ||| u32 ((1 &&& 0x0F) <<< 7)
    ||| u32 ((2 &&& 0x03) <<< 15)
    ||| u32 ((currents.vSense.toNat &&& 0x01) <<< 17)
    ||| u32 ((params.uSteps &&& 0x0F) <<< 24)
    ||| u32 ((decide (params.uSteps ≠ 0)).toNat <<< 28)
    ||| u32 ((1 &&& 0x01) <<< 29)

/-- The constant `gconf` of `Init`. -/
def gconf : Nat := u32 ((1 &&& 0x01) <<< 2) ||| u32 ((1 &&& 0x01) <<< 7)

/-- The constant `pwmconf` of `Init`. -/
def pwmconf : Nat :=
  tmc2130_PWM_AMPL ||| tmc2130_PWM_GRAD ||| tmc2130_PWM_FREQ ||| tmc2130_PWM_AUTOSCALE

/-- The test on the IOIN word in `Init`:
`((IOIN >> 24U) != 0x11) | !(IOIN & (1U << 6U))`. -/
def identityMismatch (IOIN : Nat) : Bool :=
  (IOIN >>> 24 != 0x11) || (IOIN &&& (1 <<< 6) == 0)

/-- Embedding of `TMC2130::Init`; `coolConf` is `config::tmc2130_coolConf`, whose definition
is not in config.h.  The result is the world and driver state afterwards and the returned
value (`true` reports failure). -/
def Init {D : Type} (hal : Hal D) (regs : Registers) (coolConf : Nat) (params : MotorParams)
    (w : World D) (s : TMC2130) : (World D × TMC2130) × Bool :=
  let w1 := gpioInit hal w params.csPin GpioSetup.outputHigh
  let w2 := gpioInit hal w1 params.sgPin GpioSetup.inputPullUp
  let w3 := gpioInit hal w2 params.stepPin GpioSetup.outputLow
  let r := ReadRegister hal params w3 regs.IOIN
  let IOIN := r.2
  if identityMismatch IOIN then ((r.1, s), true)
  else
    let s1 := { s with errorFlags := { s.errorFlags with reset_flag := false } }
    let w4 := WriteRegister hal params r.1 regs.CHOPCONF (chopconf params s1.currents)
    let c := SetCurrents hal regs params w4 s1 s1.currents
    let w5 := WriteRegister hal params c.1 regs.TPOWERDOWN 0
    let w6 := WriteRegister hal params w5 regs.COOLCONF coolConf
    let w7 := WriteRegister hal params w6 regs.TCOOLTHRS tmc2130_coolStepThreshold
    let w8 := WriteRegister hal params w7 regs.GCONF gconf
    let w9 := WriteRegister hal params w8 regs.PWMCONF pwmconf
    (SetMode hal regs params w9 c.2 c.2.mode, false)

/-! ## Reading a trace -/

/-- The SPI transactions on chip select `cs` recorded in a trace: for every chip-select-low
that is followed by a chip-select-high, the bytes transmitted in between.  `cur` is the
transaction that is open at the start of the trace. -/
def transactionsFrom (cs : Nat) : Option (List Nat) → List HalCall → List (List Nat)
  | _, [] => []
  | cur, HalCall.writePin pin high :: rest =>
    if pin = cs then
      if high then
        match cur with
        | some bytes => bytes :: transactionsFrom cs none rest
        | none => transactionsFrom cs none rest
      else transactionsFrom cs (some []) rest
    else transactionsFrom cs cur rest
  | some bytes, HalCall.spiTxRx b :: rest => transactionsFrom cs (some (bytes ++ [b])) rest
  | cur, _ :: rest => transactionsFrom cs cur rest

/-- The SPI transactions on chip select `cs` recorded in a trace. -/
def transactions (cs : Nat) (t : List HalCall) : List (List Nat) :=
  transactionsFrom cs none t

/-- A transaction is a register write when its first byte carries the write flag `0x80`. -/
def isWrite (tx : List Nat) : Bool :=
  tx.headD 0 &&& 0x80 != 0

/-! ## A simulated device

`replay` answers the transmitted bytes, whatever they are, with the bytes of a prepared list
(and with `0` once the list is used up).  It is used to run the driver on concrete register
contents. -/

/-- Simulated hardware whose state is the list of bytes it is still going to answer. -/
def replay : Hal (List Nat) where
  gpioInit := fun d _ _ => d
  writePin := fun d _ _ => d
  spiTxRx := fun d _ => (d.tail, d.headD 0)
  setTMCDir := fun d _ _ => d

/-- The ten bytes answered to one `ReadRegister` call that is to return the bytes
`b1 b2 b3 b4` (most significant first): five bytes for the request, a status byte and the
four data bytes. -/
def answer (b1 b2 b3 b4 : Nat) : List Nat :=
  [0, 0, 0, 0, 0, 0, b1, b2, b3, b4]

/-- Register numbers of the TMC2130 data sheet, used with the simulated device. -/
def datasheetRegisters : Registers where
  GCONF := 0x00
  GSTAT := 0x01
  IOIN := 0x04
  IHOLD_IRUN := 0x10
  TPOWERDOWN := 0x11
  TPWMTHRS := 0x13
  TCOOLTHRS := 0x14
  CHOPCONF := 0x6C
  COOLCONF := 0x6D
  DRV_STATUS := 0x6F
  PWMCONF := 0x70

/-- Motor parameters used with the simulated device: microstep code `uSteps`. -/
def testParams (uSteps : Nat) : MotorParams where
  idx := 0
  csPin := 1
  stepPin := 2
  sgPin := 3
  uSteps := uSteps

/-- A driver state with no flag set, disabled, counter `sg`. -/
def testDriver (sg : Nat) : TMC2130 where
  mode := MotorMode.Normal
  currents := ⟨true, 20, 0⟩
  errorFlags := ⟨false, false, false, false, false⟩
  enabled := false
  sg_counter := sg

/-- A driver state in which every error flag is latched, enabled, counter `sg`. -/
def faultedDriver (sg : Nat) : TMC2130 where
  mode := MotorMode.Stealth
  currents := ⟨true, 31, 5⟩
  errorFlags := ⟨true, true, true, true, true⟩
  enabled := true
  sg_counter := sg

/-! ## Sequences of calls -/

/-- The consecutive `Isr` calls for the stall samples `diags` (oldest first). -/
def IsrSamples (params : MotorParams) : List Bool → TMC2130 → TMC2130
  | [], s => s
  | diag :: rest, s => IsrSamples params rest (Isr params diag s)

/-- The member functions a client of the driver calls, with their arguments. -/
inductive Call where
  | CheckForErrors
  | SetMode (mode : MotorMode)
  | SetCurrents (currents : MotorCurrents)
  | SetEnabled (enabled : Bool)
  | ClearStallguard
  | Isr (diag : Bool)
  | Init
deriving DecidableEq

/-- One call: the world and driver state afterwards, and the returned value of the two
functions that return `bool`. -/
def perform {D : Type} (hal : Hal D) (regs : Registers) (coolConf : Nat)
    (params : MotorParams) (st : World D × TMC2130) :
    Call → (World D × TMC2130) × Option Bool
  | Call.CheckForErrors =>
    ((CheckForErrors hal regs params st.1 st.2).1, some (CheckForErrors hal regs params st.1 st.2).2)
  | Call.SetMode mode => (SetMode hal regs params st.1 st.2 mode, none)
  | Call.SetCurrents currents => (SetCurrents hal regs params st.1 st.2 currents, none)
  | Call.SetEnabled enabled => (SetEnabled hal params st.1 st.2 enabled, none)
  | Call.ClearStallguard => ((st.1, ClearStallguard params st.2), none)
  | Call.Isr diag => ((st.1, Isr params diag st.2), none)
  | Call.Init =>
    ((Init hal regs coolConf params st.1 st.2).1, some (Init hal regs coolConf params st.1 st.2).2)

/-- A sequence of calls, in order: the final world and driver state and, for every call, the
value it returned. -/
def performAll {D : Type} (hal : Hal D) (regs : Registers) (coolConf : Nat)
    (params : MotorParams) :
    List Call → World D × TMC2130 → (World D × TMC2130) × List (Call × Option Bool)
  | [], st => (st, [])
  | c :: cs, st =>
    ((performAll hal regs coolConf params cs (perform hal regs coolConf params st c).1).1,
      (c, (perform hal regs coolConf params st c).2) ::
        (performAll hal regs coolConf params cs (perform hal regs coolConf params st c).1).2)

/-! ## A pipelined device -/

/-- Modelled from the spec: the driver chip behind the SPI bus, which is hardware and not
part of the sources.  The spec describes it by its transactions: five bytes framed by chip
select, the first byte a register address with the write flag in the high bit, followed by
four big-endian data bytes, and the answer to a transaction is returned during the
following one.  `regs` are the register contents, `status` the status byte, `pending` the
word that the next transaction returns, `out` the bytes still to be shifted out and `inp`
the bytes received in the running transaction. -/
structure Chip where
  cs : Nat
  regs : Nat → Nat
  status : Nat
  pending : Nat
  out : List Nat
  inp : List Nat

/-- Modelled from the spec: what the chip does at the end of a transaction.  A five byte
transaction with the write flag stores the big-endian payload in the addressed register; one
without it selects the addressed register as the answer of the following transaction. -/
def Chip.finish (c : Chip) : Chip :=
  match c.inp with
  | [a, b1, b2, b3, b4] =>
    if a < 0x80 then { c with pending := c.regs a, out := [], inp := [] }
    else
      { c with
        regs := fun r => if r = a - 0x80 then be32 b1 b2 b3 b4 else c.regs r
        pending := be32 b1 b2 b3 b4, out := [], inp := [] }
  | _ => { c with out := [], inp := [] }

/-- Modelled from the spec: the chip as hardware behind the abstraction layer.  Chip select
going low loads the status byte and the pending word (most significant byte first) for
shifting out; every byte exchanged shifts one byte in and one out; chip select going high
ends the transaction. -/
def pipelined : Hal Chip where
  gpioInit := fun c _ _ => c
  writePin := fun c pin high =>
    if pin = c.cs then
      if high then c.finish
      else
        { c with
          out := [c.status, c.pending / 2 ^ 24 % 256, c.pending / 2 ^ 16 % 256,
            c.pending / 2 ^ 8 % 256, c.pending % 256]
          inp := [] }
    else c
  spiTxRx := fun c b => ({ c with out := c.out.tail, inp := c.inp ++ [b] }, c.out.headD 0)
  setTMCDir := fun c _ _ => c

/-- A chip on chip select 1 (the pin of `testParams`) whose register `r` holds
`0x01000000 * r + 0x00C0FFEE`, idle, with nothing pending. -/
def testChip : Chip where
  cs := 1
  regs := fun r => 0x01000000 * r + 0x00C0FFEE
  status := 0
  pending := 0
  out := []
  inp := []

/-! ## Axis configuration (`src/config/config.h`) -/

/-- The enumerators of `MRes` that config.h names (the enumeration itself is declared in
axis.h). -/
inductive MRes where
  | MRes_8
  | MRes_16
deriving DecidableEq

/-- The fields of `struct AxisConfig` initialised in config.h, except `stepsPerUnit`, which
is a floating point quotient. -/
structure AxisConfig where
  dirOn : Bool
  mRes : MRes
  vSense : Bool
  iRun : Nat
  iHold : Nat
  stealth : Bool
  sg_thrs : Int
deriving DecidableEq

/-- Constant `config::pulley`. -/
def pulley : AxisConfig where
  dirOn := false
  mRes := MRes.MRes_8
  vSense := true
  iRun := 20
  iHold := 0
  stealth := false
  sg_thrs := 8

/-- Constant `config::selector`. -/
def selector : AxisConfig where
  dirOn := true
  mRes := MRes.MRes_8
  vSense := true
  iRun := 31
  iHold := 5
  stealth := false
  sg_thrs := 3

/-- Constant `config::idler`. -/
def idler : AxisConfig where
  dirOn := true
  mRes := MRes.MRes_16
  vSense := true
  iRun := 31
  iHold := 23
  stealth := false
  sg_thrs := 8

/-! ## Slot positions (`src/config/config.h`)

`U_mm` and `U_deg` wrap a floating point number (their declaration is not part of the
sources).  The constants below are whole numbers of millimetres and degrees, and the sums
and products formed from them are exact; they are represented by rational numbers. -/

/-- Constant `config::toolCount`. -/
def toolCount : Nat := 5

/-- Constant `config::selectorLimits.lenght`, in mm. -/
def selectorLimitsLenght : ℚ := 75

/-- Constant `config::SelectorSlotDistance`, in mm. -/
def SelectorSlotDistance : ℚ := 14

/-- Constant `config::SelectorOffsetFromMax`, in mm. -/
def SelectorOffsetFromMax : ℚ := 1

/-- Table `config::selectorSlotPositions`, in mm. -/
def selectorSlotPositions : List ℚ :=
  [SelectorOffsetFromMax + 0 * SelectorSlotDistance,
   SelectorOffsetFromMax + 1 * SelectorSlotDistance,
   SelectorOffsetFromMax + 2 * SelectorSlotDistance,
   SelectorOffsetFromMax + 3 * SelectorSlotDistance,
   SelectorOffsetFromMax + 4 * SelectorSlotDistance,
   SelectorOffsetFromMax + 5 * SelectorSlotDistance]

/-- Constant `config::idlerLimits.lenght`, in degrees. -/
def idlerLimitsLenght : ℚ := 270

/-- Constant `config::IdlerSlotDistance`, in degrees. -/
def IdlerSlotDistance : ℚ := 40

/-- Constant `config::IdlerOffsetFromHome`, in degrees. -/
def IdlerOffsetFromHome : ℚ := 18

/-- Table `config::idlerSlotPositions`, in degrees. -/
def idlerSlotPositions : List ℚ :=
  [IdlerOffsetFromHome + 5 * IdlerSlotDistance,
   IdlerOffsetFromHome + 4 * IdlerSlotDistance,
   IdlerOffsetFromHome + 3 * IdlerSlotDistance,
   IdlerOffsetFromHome + 2 * IdlerSlotDistance,
   IdlerOffsetFromHome + 1 * IdlerSlotDistance,
   IdlerOffsetFromHome]

end tmc2130
end hal

/-! # Circular buffer

The unit test `tests/unit/hal/circular_buffer/test_circular_buffer.cpp` exercises
`CircularBuffer<uint8_t, uint8_t, size>`; the class itself (circular_buffer.h) is not part
of the sources. -/

/-- Modelled from the spec: `circular_buffer.h` is missing.  The spec describes a bounded
queue of fixed capacity whose pushes fail when it is full, that is first in first out for
every capacity, and whose underlying cursors have a representation that wraps.  The model
is a ring of `size` slots (`data`) with two cursors, `tail` at the oldest element and `head`
at the next free slot. -/
structure CircularBuffer (α : Type) where
  size : Nat
  data : Nat → α
  tail : Nat
  head : Nat

namespace CircularBuffer

/-- Modelled from the spec: where a cursor wraps.  For a capacity that divides the 256
values of a `uint8_t` the cursors run freely and wrap with their 8-bit representation; for
every other capacity they wrap after two laps of the ring.  In both cases the wrap is a
multiple of the capacity, so that the slots line up across it, and larger than the capacity,
so that a full buffer is told from an empty one. -/
def wrap (size : Nat) : Nat :=
  if size ∣ 256 ∧ size < 256 then 256 else 2 * size

/-- Modelled from the spec: the slot of a cursor. -/
def mask {α : Type} (b : CircularBuffer α) (cursor : Nat) : Nat :=
  cursor % b.size

/-- Modelled from the spec: the cursor after `cursor`. -/
def next {α : Type} (b : CircularBuffer α) (cursor : Nat) : Nat :=
  (cursor + 1) % wrap b.size

/-- Modelled from the spec: a buffer of capacity `size` without elements, both cursors at
0, over the memory `mem`. -/
def create {α : Type} (size : Nat) (mem : Nat → α) : CircularBuffer α :=
  ⟨size, mem, 0, 0⟩

/-- Number of resident elements: the distance from `tail` to `head` on the circle of the
cursors. -/
def count {α : Type} (b : CircularBuffer α) : Nat :=
  (b.head + wrap b.size - b.tail) % wrap b.size

/-- Modelled from the spec: `empty()`, the cursors coincide. -/
def empty {α : Type} (b : CircularBuffer α) : Bool :=
  b.tail == b.head

/-- Modelled from the spec: `full()`, the cursors are one lap of the ring apart. -/
def full {α : Type} (b : CircularBuffer α) : Bool :=
  b.count == b.size

/-- Modelled from the spec: `front()`, the oldest element. -/
def front {α : Type} (b : CircularBuffer α) : α :=
  b.data (b.mask b.tail)

/-- Modelled from the spec: `push(elem)`, which fails on a full buffer; the buffer
afterwards and the returned value. -/
def push {α : Type} (b : CircularBuffer α) (elem : α) : CircularBuffer α × Bool :=
  if b.full then (b, false)
  else
    ({ b with
        data := fun i => if i = b.mask b.head then elem else b.data i
        head := b.next b.head }, true)

/-- Modelled from the spec: `pop(elem)`, which fails on an empty buffer; the buffer
afterwards and the element handed out (`none` when the call returns false). -/
def pop {α : Type} (b : CircularBuffer α) : CircularBuffer α × Option α :=
  if b.empty then (b, none)
  else ({ b with tail := b.next b.tail }, some b.front)

/-- The resident elements, oldest first. -/
def contents {α : Type} (b : CircularBuffer α) : List α :=
  (List.range b.count).map fun i => b.data (b.mask (b.tail + i))

/-- The states the calls keep the buffer in: no more resident elements than slots, cursors
below their wrap, and resting cursors in the buffer without slots. -/
def WellFormed {α : Type} (b : CircularBuffer α) : Prop :=
  b.count ≤ b.size ∧ (b.size = 0 → b.tail = 0 ∧ b.head = 0) ∧
    (0 < b.size → b.head < wrap b.size ∧ b.tail < wrap b.size)

/-- A call on the buffer. -/
inductive Op (α : Type) where
  | push (elem : α)
  | pop
deriving DecidableEq

/-- What a sequence of calls did: the buffer afterwards, the elements of the successful
pushes and the elements of the successful pops, each in call order. -/
structure Run (α : Type) where
  buffer : CircularBuffer α
  pushed : List α
  popped : List α

/-- One call. -/
def step {α : Type} (r : Run α) : Op α → Run α
  | Op.push elem =>
    if (r.buffer.push elem).2 then ⟨(r.buffer.push elem).1, r.pushed ++ [elem], r.popped⟩
    else ⟨(r.buffer.push elem).1, r.pushed, r.popped⟩
  | Op.pop =>
    match (r.buffer.pop).2 with
    | some elem => ⟨(r.buffer.pop).1, r.pushed, r.popped ++ [elem]⟩
    | none => ⟨(r.buffer.pop).1, r.pushed, r.popped⟩

/-- A sequence of calls, in order. -/
def exec {α : Type} (r : Run α) (ops : List (Op α)) : Run α :=
  ops.foldl step r

/-- The queue as the spec words it, a bounded first-in-first-out sequence: one call on the
resident elements (oldest first), the successful pushes and the successful pops.  A push
is refused when `size` elements are resident, a pop when none is. -/
def queueStep {α : Type} (size : Nat) (m : List α × List α × List α) :
    Op α → List α × List α × List α
  | Op.push elem =>
    if m.1.length < size then (m.1 ++ [elem], m.2.1 ++ [elem], m.2.2) else m
  | Op.pop =>
    match m.1 with
    | [] => m
    | elem :: rest => (rest, m.2.1, m.2.2 ++ [elem])

/-- A sequence of calls on the queue as the spec words it. -/
def queueExec {α : Type} (size : Nat) (m : List α × List α × List α) (ops : List (Op α)) :
    List α × List α × List α :=
  ops.foldl (queueStep size) m

/-- One loop of the unit test `circular_buffer::wrap_around` (capacity 4): fill the buffer
with 0, 1, 2, 3 and retrieve all elements. -/
def fillAndDrain : List (Op Nat) :=
  [Op.push 0, Op.push 1, Op.push 2, Op.push 3, Op.pop, Op.pop, Op.pop, Op.pop]

/-- The calls of the unit test `circular_buffer::wrap_around` (capacity 4): two push and pop
pairs of `size + 1` to shift the cursors, then `loops` loops of `fillAndDrain`. -/
def wrapAround (loops : Nat) : List (Op Nat) :=
  [Op.push 5, Op.pop, Op.push 5, Op.pop] ++ (List.replicate loops fillAndDrain).flatten

/-- A run on a buffer of capacity 3 that carries the cursors across their wrap: five push
and pop pairs, then three pushes, a fourth push and three pops. -/
def acrossWrap : List (Op Nat) :=
  [Op.push 1, Op.pop, Op.push 2, Op.pop, Op.push 3, Op.pop, Op.push 4, Op.pop, Op.push 5,
    Op.pop, Op.push 10, Op.push 11, Op.push 12, Op.push 13, Op.pop, Op.pop, Op.pop]

end CircularBuffer

/-! # CutFilament

The unit test `tests/unit/logic/cut_filament/test_cut_filament.cpp` drives the automaton
`logic::CutFilament`; the automaton itself (cut_filament.cpp) and the test helpers
(helpers.ipp) are not part of the sources. -/

namespace logic

/-- The enumerators of `ProgressCode` that the unit test names. -/
inductive ProgressCode where
  | OK
  | SelectingFilamentSlot
  | FeedingToFinda
  | UnloadingToPulley
  | PreparingBlade
  | PushingFilament
  | PerformingCut
  | ReturningSelector
deriving DecidableEq

/-- Modelled from the spec: `ErrorCode` is `OK` plus hardware and mechanical fault kinds; the
unit test names `OK` only.  `feedFailed` is the code that a feed escalates to when its
retries are used up, `fault kind` a driver or stall fault surfaced to the command. -/
inductive ErrorCode where
  | OK
  | feedFailed
  | fault (kind : Nat)
deriving DecidableEq

/-- The slot index returned by `Idler::IdleSlotIndex()` and `Selector::IdleSlotIndex()`:
config.h keeps the idle position of the idler and the parking position of the selector at
index `toolCount` of the slot tables. -/
def IdleSlotIndex : Nat := hal.tmc2130.toolCount

/-- Modelled from the spec: the `CutFilament` automaton (cut_filament.cpp is missing)
together with what it drives.  The automaton owns its `ProgressCode`, its `ErrorCode`, the
target slot and the retry counter of its feed; `idlerSlot` and `selectorSlot` are the named
positions the two axes have reached and `findaPressed` is the debounced sensor. -/
structure CutFilament where
  state : ProgressCode
  error : ErrorCode
  cutSlot : Nat
  retries : Nat
  idlerSlot : Nat
  selectorSlot : Nat
  findaPressed : Bool
deriving DecidableEq

/-- Modelled from the spec: what one advance call polls.  `atTarget`: the motion that the
current phase waits for has completed; `finda`: the debounced sensor; `fault`: the kind of a
driver or stall fault that the motion executor reports on this poll, if any. -/
structure Input where
  atTarget : Bool
  finda : Bool
  fault : Option Nat
deriving DecidableEq

/-- Modelled from the spec: the retry count of a feed, "a small bounded retry count
(e.g. 2)". -/
def feedRetries : Nat := 2

/-- Modelled from the spec: the quiescent automaton, `ProgressCode` OK and `ErrorCode` OK,
with the idler disengaged and the selector at slot 0, as the first check of the unit test
finds it. -/
def fresh : CutFilament :=
  ⟨ProgressCode.OK, ErrorCode.OK, 0, 0, IdleSlotIndex, 0, false⟩

/-- Modelled from the spec: the test helper `EnsureActiveSlotIndex(slot)` (helpers.ipp is
missing) places the selector at `slot`. -/
def EnsureActiveSlotIndex (cf : CutFilament) (slot : Nat) : CutFilament :=
  { cf with selectorSlot := slot }

/-- Modelled from the spec: `Reset(param)` reinitialises the scratch state, sets the first
phase and clears the `ErrorCode`; for an out-of-range slot it reports failure and leaves the
automaton unchanged. -/
def Reset (cf : CutFilament) (param : Nat) : CutFilament × Bool :=
  if param < hal.tmc2130.toolCount then
    ({ cf with state := ProgressCode.SelectingFilamentSlot, error := ErrorCode.OK,
               cutSlot := param, retries := 0 }, true)
  else (cf, false)

/-- Modelled from the spec: one advance call.  An automaton that reports an `ErrorCode` has
halted and an automaton in OK is quiescent; a fault reported during a phase is surfaced as
the `ErrorCode`, the phase kept.  Otherwise the phases follow the spec: select the slot with
selector and idler and wait for both, feed until the sensor is active, retract until it is
inactive, move the selector one slot past the target, push the filament, perform the cut,
return the selector to its parked position.  A feed that completes without the sensor is
issued again, `feedRetries` times, before it escalates to an `ErrorCode`.  The spec does not
name the position `cutEnd` at which the cut leaves the selector, and it has both axes parked
when the automaton is back in OK. -/
def Step (cutEnd : Nat) (cf : CutFilament) (inp : Input) : CutFilament :=
  if cf.error ≠ ErrorCode.OK ∨ cf.state = ProgressCode.OK then
    { cf with findaPressed := inp.finda }
  else
    match inp.fault with
    | some kind => { cf with findaPressed := inp.finda, error := ErrorCode.fault kind }
    | none =>
      match cf.state with
      | ProgressCode.SelectingFilamentSlot =>
        if inp.atTarget then
          { cf with findaPressed := inp.finda, idlerSlot := cf.cutSlot,
                    selectorSlot := cf.cutSlot, retries := 0,
                    state := ProgressCode.FeedingToFinda }
        else { cf with findaPressed := inp.finda }
      | ProgressCode.FeedingToFinda =>
        if inp.finda then
          { cf with findaPressed := inp.finda, state := ProgressCode.UnloadingToPulley }
        else if inp.atTarget then
          if cf.retries < feedRetries then
            { cf with findaPressed := inp.finda, retries := cf.retries + 1 }
          else { cf with findaPressed := inp.finda, error := ErrorCode.feedFailed }
        else { cf with findaPressed := inp.finda }
      | ProgressCode.UnloadingToPulley =>
        if inp.finda then { cf with findaPressed := inp.finda }
        else { cf with findaPressed := inp.finda, state := ProgressCode.PreparingBlade }
      | ProgressCode.PreparingBlade =>
        if inp.atTarget then
          { cf with findaPressed := inp.finda, selectorSlot := cf.cutSlot + 1,
                    state := ProgressCode.PushingFilament }
        else { cf with findaPressed := inp.finda }
      | ProgressCode.PushingFilament =>
        if inp.atTarget then
          { cf with findaPressed := inp.finda, state := ProgressCode.PerformingCut }
        else { cf with findaPressed := inp.finda }
      | ProgressCode.PerformingCut =>
        if inp.atTarget then
          { cf with findaPressed := inp.finda, selectorSlot := cutEnd,
                    state := ProgressCode.ReturningSelector }
        else { cf with findaPressed := inp.finda }
      | ProgressCode.ReturningSelector =>
        if inp.atTarget then
          { cf with findaPressed := inp.finda, selectorSlot := IdleSlotIndex,
                    idlerSlot := IdleSlotIndex, state := ProgressCode.OK }
        else { cf with findaPressed := inp.finda }
      | ProgressCode.OK => { cf with findaPressed := inp.finda }

/-- A sequence of advance calls. -/
def advance (cutEnd : Nat) (cf : CutFilament) (ins : List Input) : CutFilament :=
  ins.foldl (Step cutEnd) cf

/-- The automaton after `Reset(cutSlot)`, the selector placed at `cutSlot` before, as in the
unit test. -/
def started (cutSlot : Nat) : CutFilament :=
  (Reset (EnsureActiveSlotIndex fresh cutSlot) cutSlot).1

end logic

namespace hal
namespace tmc2130

/-! ## Buttons (`src/config/config.h`) -/

/-- Constant `config::buttonCount`. -/
def buttonCount : Nat := 3

/-- Table `config::buttonADCLimits`: for every button the low and the high limit of its ADC
window. -/
def buttonADCLimits : List (Nat × Nat) :=
  [(0, 50), (80, 100), (160, 180)]

/-! ## Frames of a write -/

/-- The array `pData` that `WriteRegister` transmits for register `reg` and word `data`. -/
def writeFrame (reg data : Nat) : List Nat :=
  [u8 (u8 reg ||| 0x80), u8 (data >>> 24), u8 (data >>> 16), u8 (data >>> 8), u8 data]

/-! ## Transport lemmas -/

theorem u8_lt (n : Nat) : u8 n < 256 := Nat.mod_lt n (by decide)

theorem u32_lt (n : Nat) : u32 n < 4294967296 := Nat.mod_lt n (by decide)

theorem be32_lt (b1 b2 b3 b4 : Nat) : be32 b1 b2 b3 b4 < 2 ^ 32 := by
  unfold be32
  exact Nat.or_lt_two_pow (Nat.or_lt_two_pow (Nat.or_lt_two_pow (u32_lt _) (u32_lt _))
    (u32_lt _)) (u32_lt _)

/-- A bitwise or of a multiple of `2 ^ i` with a number below `2 ^ i` is their sum. -/
theorem or_eq_add_of_dvd (i a b : Nat) (ha : 2 ^ i ∣ a) (hb : b < 2 ^ i) : a ||| b = a + b := by
  obtain ⟨k, rfl⟩ := ha
  exact (Nat.mul_add_lt_is_or hb k).symm

theorem be32_eq_add (b1 b2 b3 b4 : Nat) (h1 : b1 < 256) (h2 : b2 < 256) (h3 : b3 < 256)
    (h4 : b4 < 256) : be32 b1 b2 b3 b4 = b1 * 2 ^ 24 + b2 * 2 ^ 16 + b3 * 2 ^ 8 + b4 := by
  have e1 : u32 (b1 <<< 24) = b1 * 2 ^ 24 := by
    simp only [u32, Nat.shiftLeft_eq]; omega
  have e2 : u32 (b2 <<< 16) = b2 * 2 ^ 16 := by
    simp only [u32, Nat.shiftLeft_eq]; omega
  have e3 : u32 (b3 <<< 8) = b3 * 2 ^ 8 := by
    simp only [u32, Nat.shiftLeft_eq]; omega
  have e4 : u32 b4 = b4 := by
    simp only [u32]; omega
  unfold be32
  rw [e1, e2, e3, e4]
  rw [or_eq_add_of_dvd 24 (b1 * 2 ^ 24) (b2 * 2 ^ 16) (Dvd.intro_left _ rfl) (by omega)]
  rw [or_eq_add_of_dvd 16 (b1 * 2 ^ 24 + b2 * 2 ^ 16) (b3 * 2 ^ 8) (by omega) (by omega)]
  rw [or_eq_add_of_dvd 8 (b1 * 2 ^ 24 + b2 * 2 ^ 16 + b3 * 2 ^ 8) b4 (by omega) (by omega)]

theorem spiLoop_trace {D : Type} (hal : Hal D) (bs : List Nat) (w : World D) :
    (spiLoop hal w bs).1.trace = w.trace ++ bs.map HalCall.spiTxRx := by
  induction bs generalizing w with
  | nil => simp [spiLoop]
  | cons b bs ih => simp [spiLoop, ih, spiTxRx]

theorem spiLoop_length {D : Type} (hal : Hal D) (bs : List Nat) (w : World D) :
    (spiLoop hal w bs).2.length = bs.length := by
  induction bs generalizing w with
  | nil => simp [spiLoop]
  | cons b bs ih => simp [spiLoop, ih]

theorem spiLoop_lt {D : Type} (hal : Hal D) (bs : List Nat) (w : World D) :
    ∀ x ∈ (spiLoop hal w bs).2, x < 256 := by
  induction bs generalizing w with
  | nil => simp [spiLoop]
  | cons b bs ih =>
    intro x hx
    simp only [spiLoop, List.mem_cons] at hx
    rcases hx with rfl | hx
    · exact u8_lt _
    · exact ih _ x hx

theorem _spi_tx_rx_trace {D : Type} (hal : Hal D) (params : MotorParams) (w : World D)
    (pData : List Nat) :
    (_spi_tx_rx hal params w pData).1.trace =
      w.trace ++ (HalCall.writePin params.csPin false :: pData.map HalCall.spiTxRx
        ++ [HalCall.writePin params.csPin true]) := by
  simp [_spi_tx_rx, writePin, spiLoop_trace]

theorem list_length_five {α : Type} (l : List α) (h : l.length = 5) :
    ∃ a b c d e, l = [a, b, c, d, e] := by
  match l, h with
  | [a, b, c, d, e], _ => exact ⟨a, b, c, d, e, rfl⟩

theorem _spi_tx_rx_five {D : Type} (hal : Hal D) (params : MotorParams) (w : World D)
    (p0 p1 p2 p3 p4 : Nat) :
    ∃ a b c d e, (_spi_tx_rx hal params w [p0, p1, p2, p3, p4]).2 = [a, b, c, d, e] ∧
      a < 256 ∧ b < 256 ∧ c < 256 ∧ d < 256 ∧ e < 256 := by
  have hlen : (_spi_tx_rx hal params w [p0, p1, p2, p3, p4]).2.length = 5 := by
    simp [_spi_tx_rx, spiLoop_length]
  have hlt : ∀ x ∈ (_spi_tx_rx hal params w [p0, p1, p2, p3, p4]).2, x < 256 := by
    simp only [_spi_tx_rx]
    exact spiLoop_lt hal _ _
  obtain ⟨a, b, c, d, e, h⟩ := list_length_five _ hlen
  rw [h] at hlt
  refine ⟨a, b, c, d, e, h, ?_, ?_, ?_, ?_, ?_⟩ <;> apply hlt <;> simp

/-- The calls made by one `ReadRegister`, given the four bytes `b c d e` that the first
transaction received after the address byte (they are transmitted again by the second). -/
theorem ReadRegister_trace {D : Type} (hal : Hal D) (params : MotorParams) (w : World D)
    (reg : Nat) :
    ∃ b c d e, (ReadRegister hal params w reg).1.trace = w.trace ++
      [HalCall.writePin params.csPin false, HalCall.spiTxRx (u8 reg), HalCall.spiTxRx 0,
        HalCall.spiTxRx 0, HalCall.spiTxRx 0, HalCall.spiTxRx 0,
        HalCall.writePin params.csPin true,
        HalCall.writePin params.csPin false, HalCall.spiTxRx 0, HalCall.spiTxRx b,
        HalCall.spiTxRx c, HalCall.spiTxRx d, HalCall.spiTxRx e,
        HalCall.writePin params.csPin true] := by
  obtain ⟨a, b, c, d, e, h, -⟩ := _spi_tx_rx_five hal params w (u8 reg) 0 0 0 0
  refine ⟨b, c, d, e, ?_⟩
  simp only [ReadRegister]
  rw [_spi_tx_rx_trace, _spi_tx_rx_trace, h]
  simp

theorem ReadRegister_lt {D : Type} (hal : Hal D) (params : MotorParams) (w : World D)
    (reg : Nat) : (ReadRegister hal params w reg).2 < 2 ^ 32 := by
  simp only [ReadRegister]
  exact be32_lt _ _ _ _

theorem and_ne_zero_iff (x m : Nat) :
    x &&& m ≠ 0 ↔ ∃ j, x.testBit j = true ∧ m.testBit j = true := by
  constructor
  · intro h
    obtain ⟨j, hj⟩ := Nat.ne_zero_implies_bit_true h
    exact ⟨j, by simpa using hj⟩
  · rintro ⟨j, h1, h2⟩ h0
    have h3 := congrArg (fun n => n.testBit j) h0
    simp [h1, h2] at h3

theorem and_two_pow_ne_zero (x i : Nat) : x &&& 2 ^ i ≠ 0 ↔ x.testBit i = true := by
  rw [and_ne_zero_iff]
  constructor
  · rintro ⟨j, h1, h2⟩
    rw [Nat.testBit_two_pow] at h2
    have h3 : i = j := by simpa using h2
    rw [h3]; exact h1
  · intro h
    exact ⟨i, h, Nat.testBit_two_pow_self⟩

theorem identityMismatch_iff (IOIN : Nat) (h : IOIN < 2 ^ 32) :
    identityMismatch IOIN = true ↔ (IOIN / 2 ^ 24 % 2 ^ 8 ≠ 0x11 ∨ IOIN.testBit 6 = false) := by
  have e1 : IOIN >>> 24 = IOIN / 2 ^ 24 % 2 ^ 8 := by
    rw [Nat.shiftRight_eq_div_pow]; omega
  have e2 : (1 : Nat) <<< 6 = 64 := by decide
  have e3 : IOIN &&& 64 ≠ 0 ↔ IOIN.testBit 6 = true := and_two_pow_ne_zero IOIN 6
  unfold identityMismatch
  rw [e1, e2]
  cases hb : IOIN.testBit 6
  · have h0 : IOIN &&& 64 = 0 := by
      by_contra hne
      rw [e3.mp hne] at hb
      exact Bool.noConfusion hb
    simp [h0]
  · have h0 : IOIN &&& 64 ≠ 0 := e3.mpr hb
    simp [h0]

theorem transactions_gpioInit (cs pin : Nat) (cfg : GpioSetup) (cur : Option (List Nat))
    (rest : List HalCall) :
    transactionsFrom cs cur (HalCall.gpioInit pin cfg :: rest) = transactionsFrom cs cur rest := by
  cases cur <;> simp [transactionsFrom]

theorem transactions_five (cs b0 b1 b2 b3 b4 : Nat) (cur : Option (List Nat))
    (rest : List HalCall) :
    transactionsFrom cs cur (HalCall.writePin cs false :: HalCall.spiTxRx b0 ::
      HalCall.spiTxRx b1 :: HalCall.spiTxRx b2 :: HalCall.spiTxRx b3 :: HalCall.spiTxRx b4 ::
      HalCall.writePin cs true :: rest) = [b0, b1, b2, b3, b4] :: transactionsFrom cs none rest := by
  cases cur <;> simp [transactionsFrom]

theorem isWrite_read_request (reg b1 b2 b3 b4 : Nat) (h : reg < 0x80) :
    isWrite [u8 reg, b1, b2, b3, b4] = false := by
  have h1 : u8 reg = reg := by unfold u8; omega
  have h2 : ¬ (reg &&& 2 ^ 7 ≠ 0) := by
    rw [and_two_pow_ne_zero, Nat.testBit_lt_two_pow (by omega)]
    exact Bool.noConfusion
  have h3 : reg &&& 128 = 0 := by simpa using h2
  simp [isWrite, h1, h3]

/-! ## Initialisation -/

/-- C1: `TMC2130::Init` returns true (failure) if and only if the 32-bit value read from the
IOIN register has a version field (bits 31..24) different from 0x11 or has bit 6 clear; for
every other IOIN value it returns false. -/
theorem Init_returns_true_iff {D : Type} (hal : Hal D) (regs : Registers) (coolConf : Nat)
    (params : MotorParams) (w : World D) (s : TMC2130) :
    ((Init hal regs coolConf params w s).2 = true ↔
      ((ReadRegister hal params (gpioInit hal (gpioInit hal (gpioInit hal w
          params.csPin GpioSetup.outputHigh) params.sgPin GpioSetup.inputPullUp)
          params.stepPin GpioSetup.outputLow) regs.IOIN).2 / 2 ^ 24 % 2 ^ 8 ≠ 0x11 ∨
        (ReadRegister hal params (gpioInit hal (gpioInit hal (gpioInit hal w
          params.csPin GpioSetup.outputHigh) params.sgPin GpioSetup.inputPullUp)
          params.stepPin GpioSetup.outputLow) regs.IOIN).2.testBit 6 = false)) ∧
    ((Init hal regs coolConf params w s).2 = false ↔
      ((ReadRegister hal params (gpioInit hal (gpioInit hal (gpioInit hal w
          params.csPin GpioSetup.outputHigh) params.sgPin GpioSetup.inputPullUp)
          params.stepPin GpioSetup.outputLow) regs.IOIN).2 / 2 ^ 24 % 2 ^ 8 = 0x11 ∧
        (ReadRegister hal params (gpioInit hal (gpioInit hal (gpioInit hal w
          params.csPin GpioSetup.outputHigh) params.sgPin GpioSetup.inputPullUp)
          params.stepPin GpioSetup.outputLow) regs.IOIN).2.testBit 6 = true)) := by
  have key := identityMismatch_iff _ (ReadRegister_lt hal params (gpioInit hal (gpioInit hal
    (gpioInit hal w params.csPin GpioSetup.outputHigh) params.sgPin GpioSetup.inputPullUp)
    params.stepPin GpioSetup.outputLow) regs.IOIN)
  have hret : (Init hal regs coolConf params w s).2 = identityMismatch
      (ReadRegister hal params (gpioInit hal (gpioInit hal (gpioInit hal w
        params.csPin GpioSetup.outputHigh) params.sgPin GpioSetup.inputPullUp)
        params.stepPin GpioSetup.outputLow) regs.IOIN).2 := by
    simp only [Init]
    split <;> simp_all
  rw [hret]
  refine ⟨key, ?_⟩
  rw [← Bool.not_eq_true, key]
  constructor
  · intro h
    refine ⟨?_, ?_⟩
    · by_contra h1; exact h (Or.inl h1)
    · cases hb : Nat.testBit _ 6
      · exact absurd (Or.inr hb) h
      · rfl
  · rintro ⟨h1, h2⟩ (h3 | h3)
    · exact h3 h1
    · rw [h2] at h3; exact Bool.noConfusion h3

/-- C2: when the identity check of `Init` fails, the driver state (mode, currents, enabled,
stallguard counter and all error flags, the reset flag among them) is the same after the call
as before it, and none of the SPI transactions issued by the call is a register write (first
byte with the write flag 0x80): the call issues just the two read transactions of IOIN. -/
theorem Init_failure_has_no_side_effects {D : Type} (hal : Hal D) (regs : Registers)
    (coolConf : Nat) (params : MotorParams) (w : World D) (s : TMC2130)
    (hreg : regs.IOIN < 0x80) (hfail : (Init hal regs coolConf params w s).2 = true) :
    (Init hal regs coolConf params w s).1.2 = s ∧
    ∃ calls, (Init hal regs coolConf params w s).1.1.trace = w.trace ++ calls ∧
      (transactions params.csPin calls).length = 2 ∧
      ∀ tx ∈ transactions params.csPin calls, isWrite tx = false := by
  have hcond : identityMismatch (ReadRegister hal params (gpioInit hal (gpioInit hal
      (gpioInit hal w params.csPin GpioSetup.outputHigh) params.sgPin GpioSetup.inputPullUp)
      params.stepPin GpioSetup.outputLow) regs.IOIN).2 = true := by
    simp only [Init] at hfail
    split at hfail
    · assumption
    · simp at hfail
  obtain ⟨b, c, d, e, htr⟩ := ReadRegister_trace hal params (gpioInit hal (gpioInit hal
      (gpioInit hal w params.csPin GpioSetup.outputHigh) params.sgPin GpioSetup.inputPullUp)
      params.stepPin GpioSetup.outputLow) regs.IOIN
  simp only [Init, hcond, if_true]
  refine ⟨trivial, [HalCall.gpioInit params.csPin GpioSetup.outputHigh,
    HalCall.gpioInit params.sgPin GpioSetup.inputPullUp,
    HalCall.gpioInit params.stepPin GpioSetup.outputLow,
    HalCall.writePin params.csPin false, HalCall.spiTxRx (u8 regs.IOIN), HalCall.spiTxRx 0,
    HalCall.spiTxRx 0, HalCall.spiTxRx 0, HalCall.spiTxRx 0, HalCall.writePin params.csPin true,
    HalCall.writePin params.csPin false, HalCall.spiTxRx 0, HalCall.spiTxRx b,
    HalCall.spiTxRx c, HalCall.spiTxRx d, HalCall.spiTxRx e,
    HalCall.writePin params.csPin true], ?_, ?_, ?_⟩
  · rw [htr]
    simp [gpioInit]
  · simp only [transactions, transactions_gpioInit, transactions_five]
    simp [transactionsFrom]
  · intro tx htx
    simp only [transactions, transactions_gpioInit, transactions_five] at htx
    simp only [transactionsFrom, List.mem_cons, List.not_mem_nil, or_false] at htx
    rcases htx with rfl | rfl
    · exact isWrite_read_request _ _ _ _ _ hreg
    · simp [isWrite]

/-- Instance of C2 on the simulated device: IOIN reads 0x10000040 (version 0x10). -/
theorem Init_failure_has_no_side_effects_witness :
    (datasheetRegisters.IOIN < 0x80 ∧
      (Init replay datasheetRegisters 0 (testParams 5) ⟨answer 0x10 0 0 0x40, []⟩
        (faultedDriver 7)).2 = true) ∧
    ((Init replay datasheetRegisters 0 (testParams 5) ⟨answer 0x10 0 0 0x40, []⟩
        (faultedDriver 7)).1.2 = faultedDriver 7 ∧
      ∃ calls, (Init replay datasheetRegisters 0 (testParams 5) ⟨answer 0x10 0 0 0x40, []⟩
          (faultedDriver 7)).1.1.trace = [] ++ calls ∧
        (transactions (testParams 5).csPin calls).length = 2 ∧
        ∀ tx ∈ transactions (testParams 5).csPin calls, isWrite tx = false) :=
  ⟨⟨by decide, by decide⟩,
    Init_failure_has_no_side_effects replay datasheetRegisters 0 (testParams 5)
      ⟨answer 0x10 0 0 0x40, []⟩ (faultedDriver 7) (by decide) (by decide)⟩

/-! ## Register transport -/

theorem write_address_byte (reg : Nat) (h : reg < 0x80) : u8 (u8 reg ||| 0x80) = reg ||| 0x80 := by
  have h1 : u8 reg = reg := by unfold u8; omega
  have h2 : reg ||| 0x80 = 0x80 + reg := by
    rw [Nat.or_comm]
    exact or_eq_add_of_dvd 7 0x80 reg (by decide) (by omega)
  rw [h1, h2]
  unfold u8
  omega

/-- C10: for every register address `reg < 0x80` and every 32-bit value `data`,
`WriteRegister` issues exactly one 5-byte transaction; its first byte is `reg | 0x80`, its
bytes 1..4 are `data` in big-endian order (most significant byte first), and the big-endian
decoding used by `ReadRegister` reassembles bytes 1..4 to `data`. -/
theorem WriteRegister_one_big_endian_transaction {D : Type} (hal : Hal D)
    (params : MotorParams) (w : World D) (reg data : Nat)
    (hreg : reg < 0x80) (hdata : data < 2 ^ 32) :
    (∃ calls, (WriteRegister hal params w reg data).trace = w.trace ++ calls ∧
      transactions params.csPin calls =
        [[reg ||| 0x80, data / 2 ^ 24 % 256, data / 2 ^ 16 % 256, data / 2 ^ 8 % 256,
          data % 256]]) ∧
    be32 (data / 2 ^ 24 % 256) (data / 2 ^ 16 % 256) (data / 2 ^ 8 % 256) (data % 256) = data := by
  refine ⟨⟨[HalCall.writePin params.csPin false, HalCall.spiTxRx (reg ||| 0x80),
    HalCall.spiTxRx (data / 2 ^ 24 % 256), HalCall.spiTxRx (data / 2 ^ 16 % 256),
    HalCall.spiTxRx (data / 2 ^ 8 % 256), HalCall.spiTxRx (data % 256),
    HalCall.writePin params.csPin true], ?_, ?_⟩, ?_⟩
  · simp only [WriteRegister]
    rw [_spi_tx_rx_trace, write_address_byte reg hreg]
    simp [u8, Nat.shiftRight_eq_div_pow]
  · simp only [transactions, transactions_five]
    simp [transactionsFrom]
  · rw [be32_eq_add _ _ _ _ (Nat.mod_lt _ (by decide)) (Nat.mod_lt _ (by decide))
      (Nat.mod_lt _ (by decide)) (Nat.mod_lt _ (by decide))]
    omega

/-- Instance of C10: writing 0x12345678 to register 0x6C. -/
theorem WriteRegister_one_big_endian_transaction_witness :
    ((0x6C : Nat) < 0x80 ∧ (0x12345678 : Nat) < 2 ^ 32) ∧
    ((∃ calls, (WriteRegister replay (testParams 5) ⟨[], []⟩ 0x6C 0x12345678).trace
        = [] ++ calls ∧
      transactions (testParams 5).csPin calls =
        [[0x6C ||| 0x80, 0x12345678 / 2 ^ 24 % 256, 0x12345678 / 2 ^ 16 % 256,
          0x12345678 / 2 ^ 8 % 256, 0x12345678 % 256]]) ∧
    be32 (0x12345678 / 2 ^ 24 % 256) (0x12345678 / 2 ^ 16 % 256) (0x12345678 / 2 ^ 8 % 256)
      (0x12345678 % 256) = 0x12345678) :=
  ⟨⟨by decide, by decide⟩,
    WriteRegister_one_big_endian_transaction replay (testParams 5) ⟨[], []⟩ 0x6C 0x12345678
      (by decide) (by decide)⟩

/-! ## Error flags -/

theorem and_one_shiftLeft_bne (x i : Nat) : (x &&& (1 <<< i) != 0) = x.testBit i := by
  have e : (1 : Nat) <<< i = 2 ^ i := by rw [Nat.shiftLeft_eq, Nat.one_mul]
  rw [e]
  cases h : x.testBit i
  · have h1 : ¬ (x &&& 2 ^ i ≠ 0) := by
      rw [and_two_pow_ne_zero, h]; exact Bool.noConfusion
    simpa using h1
  · have h1 := (and_two_pow_ne_zero x i).mpr h
    simpa using h1

theorem and_s2g_mask_ne_zero (x : Nat) :
    x &&& (3 <<< 27) ≠ 0 ↔ (x.testBit 27 = true ∨ x.testBit 28 = true) := by
  have e : (3 : Nat) <<< 27 = 2 ^ 27 ||| 2 ^ 28 := by decide
  rw [e, and_ne_zero_iff]
  constructor
  · rintro ⟨j, h1, h2⟩
    rw [Nat.testBit_or, Nat.testBit_two_pow, Nat.testBit_two_pow] at h2
    simp only [Bool.or_eq_true, decide_eq_true_eq] at h2
    rcases h2 with rfl | rfl
    · exact Or.inl h1
    · exact Or.inr h1
  · rintro (h | h)
    · exact ⟨27, h, by rw [Nat.testBit_or, Nat.testBit_two_pow_self]; rfl⟩
    · exact ⟨28, h, by rw [Nat.testBit_or, Nat.testBit_two_pow_self (n := 28), Bool.or_true]⟩

theorem and_s2g_mask_bne (x : Nat) :
    (x &&& (3 <<< 27) != 0) = (x.testBit 27 || x.testBit 28) := by
  have h := and_s2g_mask_ne_zero x
  cases h27 : x.testBit 27 <;> cases h28 : x.testBit 28 <;> simp_all

/-- The error flags after `CheckForErrors`, in terms of the bits of the two words read. -/
theorem CheckForErrors_errorFlags {D : Type} (hal : Hal D) (regs : Registers)
    (params : MotorParams) (w : World D) (s : TMC2130) :
    (CheckForErrors hal regs params w s).1.2.errorFlags =
      { reset_flag := s.errorFlags.reset_flag ||
          (ReadRegister hal params w regs.GSTAT).2.testBit 0
        uv_cp := (ReadRegister hal params w regs.GSTAT).2.testBit 2
        s2g := (ReadRegister hal params (ReadRegister hal params w regs.GSTAT).1
            regs.DRV_STATUS).2.testBit 27 ||
          (ReadRegister hal params (ReadRegister hal params w regs.GSTAT).1
            regs.DRV_STATUS).2.testBit 28
        otpw := (ReadRegister hal params (ReadRegister hal params w regs.GSTAT).1
          regs.DRV_STATUS).2.testBit 26
        ot := (ReadRegister hal params (ReadRegister hal params w regs.GSTAT).1
          regs.DRV_STATUS).2.testBit 25 } := by
  simp only [CheckForErrors, and_one_shiftLeft_bne, and_s2g_mask_bne]

/-- The value returned by `CheckForErrors`. -/
theorem CheckForErrors_result {D : Type} (hal : Hal D) (regs : Registers)
    (params : MotorParams) (w : World D) (s : TMC2130) :
    (CheckForErrors hal regs params w s).2 =
      ((ReadRegister hal params w regs.GSTAT).2 != 0 || s.errorFlags.reset_flag) := by
  simp only [CheckForErrors, and_one_shiftLeft_bne]
  cases h : (ReadRegister hal params w regs.GSTAT).2 != 0
  · have h0 : (ReadRegister hal params w regs.GSTAT).2 = 0 := by simpa using h
    simp [h0]
  · simp

/-- Apart from the error flags, `CheckForErrors` leaves the driver state as it was. -/
theorem CheckForErrors_state {D : Type} (hal : Hal D) (regs : Registers)
    (params : MotorParams) (w : World D) (s : TMC2130) :
    (CheckForErrors hal regs params w s).1.2 =
      { s with errorFlags := (CheckForErrors hal regs params w s).1.2.errorFlags } := by
  simp only [CheckForErrors]

theorem ne_zero_of_testBit (x i : Nat) (h : x.testBit i = true) : x ≠ 0 := by
  rintro rfl
  rw [Nat.zero_testBit] at h
  exact Bool.noConfusion h

/-- C6: `CheckForErrors` decodes the fault bits of the two status words into the error
flags: afterwards `uv_cp` is set iff GSTAT bit 2 is set, `s2g` iff DRV_STATUS bit 27 or bit 28
is set, `otpw` iff DRV_STATUS bit 26 is set, `ot` iff DRV_STATUS bit 25 is set, and
`reset_flag` is its previous value or GSTAT bit 0. -/
theorem CheckForErrors_decodes_fault_bits {D : Type} (hal : Hal D) (regs : Registers)
    (params : MotorParams) (w : World D) (s : TMC2130) :
    let GSTAT := (ReadRegister hal params w regs.GSTAT).2
    let DRV_STATUS := (ReadRegister hal params (ReadRegister hal params w regs.GSTAT).1
      regs.DRV_STATUS).2
    let flags := (CheckForErrors hal regs params w s).1.2.errorFlags
    (flags.uv_cp = true ↔ GSTAT.testBit 2 = true) ∧
    (flags.s2g = true ↔ (DRV_STATUS.testBit 27 = true ∨ DRV_STATUS.testBit 28 = true)) ∧
    (flags.otpw = true ↔ DRV_STATUS.testBit 26 = true) ∧
    (flags.ot = true ↔ DRV_STATUS.testBit 25 = true) ∧
    flags.reset_flag = (s.errorFlags.reset_flag || GSTAT.testBit 0) := by
  intro GSTAT DRV_STATUS flags
  have h : flags = _ := CheckForErrors_errorFlags hal regs params w s
  rw [h]
  simp [GSTAT, DRV_STATUS]

/-- C3, as the code has it: `CheckForErrors` returns true exactly when the GSTAT word it read
is non-zero or the reset flag is set after the call.  Hence it returns true whenever
`reset_flag` or `uv_cp` is set after the call; the flags decoded from DRV_STATUS (`s2g`,
`otpw`, `ot`) do not enter the returned value. -/
theorem CheckForErrors_returns_true_iff {D : Type} (hal : Hal D) (regs : Registers)
    (params : MotorParams) (w : World D) (s : TMC2130) :
    let GSTAT := (ReadRegister hal params w regs.GSTAT).2
    let flags := (CheckForErrors hal regs params w s).1.2.errorFlags
    ((CheckForErrors hal regs params w s).2 = true ↔ (GSTAT ≠ 0 ∨ flags.reset_flag = true)) ∧
    ((flags.reset_flag = true ∨ flags.uv_cp = true) →
      (CheckForErrors hal regs params w s).2 = true) := by
  intro GSTAT flags
  have h : flags = _ := CheckForErrors_errorFlags hal regs params w s
  have hr := CheckForErrors_result hal regs params w s
  have h0 := ne_zero_of_testBit GSTAT 0
  have h2 := ne_zero_of_testBit GSTAT 2
  rw [h, hr]
  simp only [Bool.or_eq_true, bne_iff_ne, ne_eq]
  refine ⟨?_, ?_⟩
  · constructor
    · rintro (h1 | h1)
      · exact Or.inl h1
      · exact Or.inr (Or.inl h1)
    · rintro (h1 | h1 | h1)
      · exact Or.inl h1
      · exact Or.inr h1
      · exact Or.inl (h0 h1)
  · rintro ((h1 | h1) | h1)
    · exact Or.inr h1
    · exact Or.inl (h0 h1)
    · exact Or.inl (h2 h1)

/-- C3 fails as stated: the device reads GSTAT = 0 and DRV_STATUS = 0x08000000 (short to
ground, bit 27); the call latches `s2g` and returns false. -/
theorem CheckForErrors_unreported_short_to_ground :
    (ReadRegister replay (testParams 5) ⟨answer 0 0 0 0 ++ answer 0x08 0 0 0, []⟩
      datasheetRegisters.GSTAT).2 = 0 ∧
    (CheckForErrors replay datasheetRegisters (testParams 5)
      ⟨answer 0 0 0 0 ++ answer 0x08 0 0 0, []⟩ (testDriver 0)).1.2.errorFlags
        = ⟨false, false, true, false, false⟩ ∧
    (CheckForErrors replay datasheetRegisters (testParams 5)
      ⟨answer 0 0 0 0 ++ answer 0x08 0 0 0, []⟩ (testDriver 0)).2 = false := by
  decide

theorem SetCurrents_errorFlags {D : Type} (hal : Hal D) (regs : Registers)
    (params : MotorParams) (w : World D) (s : TMC2130) (c : MotorCurrents) :
    (SetCurrents hal regs params w s c).2 = { s with currents := c } := rfl

theorem SetMode_errorFlags {D : Type} (hal : Hal D) (regs : Registers)
    (params : MotorParams) (w : World D) (s : TMC2130) (m : MotorMode) :
    (SetMode hal regs params w s m).2 = { s with mode := m } := rfl

/-- The driver state after `Init`: unchanged when the identity check fails, and with only
the reset flag cleared when it succeeds. -/
theorem Init_state {D : Type} (hal : Hal D) (regs : Registers) (coolConf : Nat)
    (params : MotorParams) (w : World D) (s : TMC2130) :
    (Init hal regs coolConf params w s).1.2 =
      if (Init hal regs coolConf params w s).2 = true then s
      else { s with errorFlags := { s.errorFlags with reset_flag := false } } := by
  simp only [Init]
  split <;> simp [SetCurrents_errorFlags, SetMode_errorFlags]

/-- C4, as the code has it: the flags `uv_cp`, `s2g` and `ot` are not sticky.  Whatever
flags an earlier call latched (any prior state `s`), after a later `CheckForErrors` call
`uv_cp` is set iff that call reads GSTAT bit 2 set, `s2g` iff it reads DRV_STATUS bit 27 or
28 set and `ot` iff it reads DRV_STATUS bit 25 set; `Init` leaves the three flags as they
are. -/
theorem fault_flags_follow_latest_read {D : Type} (hal : Hal D) (regs : Registers)
    (coolConf : Nat) (params : MotorParams) (w w0 : World D) (s : TMC2130) :
    let earlier := (CheckForErrors hal regs params w0 s).1.2
    let GSTAT := (ReadRegister hal params w regs.GSTAT).2
    let DRV_STATUS := (ReadRegister hal params (ReadRegister hal params w regs.GSTAT).1
      regs.DRV_STATUS).2
    let later := (CheckForErrors hal regs params w earlier).1.2.errorFlags
    let reinit := (Init hal regs coolConf params w earlier).1.2.errorFlags
    ((later.uv_cp = true ↔ GSTAT.testBit 2 = true) ∧
      (later.s2g = true ↔ (DRV_STATUS.testBit 27 = true ∨ DRV_STATUS.testBit 28 = true)) ∧
      (later.ot = true ↔ DRV_STATUS.testBit 25 = true)) ∧
    (reinit.uv_cp = earlier.errorFlags.uv_cp ∧ reinit.s2g = earlier.errorFlags.s2g ∧
      reinit.ot = earlier.errorFlags.ot) := by
  intro earlier GSTAT DRV_STATUS later reinit
  have h : later = _ := CheckForErrors_errorFlags hal regs params w earlier
  have hi : reinit = _ := congrArg TMC2130.errorFlags
    (Init_state hal regs coolConf params w earlier)
  constructor
  · rw [h]
    simp [GSTAT, DRV_STATUS]
  · rw [hi]
    split <;> simp

/-- C4 fails as stated: a first `CheckForErrors` reads GSTAT = 4 and DRV_STATUS = 0x1A000000
and sets `uv_cp`, `s2g` and `ot`; a second call reads both registers as zero and all three
flags are clear again, without any `Init` in between. -/
theorem fault_flags_cleared_by_later_check :
    (CheckForErrors replay datasheetRegisters (testParams 5)
      ⟨answer 0 0 0 4 ++ answer 0x1A 0 0 0 ++ answer 0 0 0 0 ++ answer 0 0 0 0, []⟩
      (testDriver 0)).1.2.errorFlags = ⟨false, true, true, false, true⟩ ∧
    (CheckForErrors replay datasheetRegisters (testParams 5)
      (CheckForErrors replay datasheetRegisters (testParams 5)
        ⟨answer 0 0 0 4 ++ answer 0x1A 0 0 0 ++ answer 0 0 0 0 ++ answer 0 0 0 0, []⟩
        (testDriver 0)).1.1
      (CheckForErrors replay datasheetRegisters (testParams 5)
        ⟨answer 0 0 0 4 ++ answer 0x1A 0 0 0 ++ answer 0 0 0 0 ++ answer 0 0 0 0, []⟩
        (testDriver 0)).1.2).1.2.errorFlags = ⟨false, false, false, false, false⟩ := by
  decide

theorem Isr_errorFlags (params : MotorParams) (diag : Bool) (s : TMC2130) :
    (Isr params diag s).errorFlags = s.errorFlags := by
  unfold Isr
  split
  · split
    · rfl
    · split <;> rfl
  · rfl

theorem SetEnabled_errorFlags {D : Type} (hal : Hal D) (params : MotorParams)
    (w : World D) (s : TMC2130) (e : Bool) :
    (SetEnabled hal params w s e).2.errorFlags = s.errorFlags := by
  simp only [SetEnabled]
  split <;> rfl

/-- One call keeps a set reset flag set, unless it is an `Init` that returns false; a
`CheckForErrors` among them returns true. -/
theorem perform_reset_flag {D : Type} (hal : Hal D) (regs : Registers) (coolConf : Nat)
    (params : MotorParams) (st : World D × TMC2130) (c : Call)
    (hset : st.2.errorFlags.reset_flag = true)
    (hinit : (c, (perform hal regs coolConf params st c).2) ≠ (Call.Init, some false)) :
    (perform hal regs coolConf params st c).1.2.errorFlags.reset_flag = true ∧
    (c = Call.CheckForErrors → (perform hal regs coolConf params st c).2 = some true) := by
  cases c with
  | CheckForErrors =>
    simp only [perform]
    rw [CheckForErrors_errorFlags, CheckForErrors_result]
    simp [hset]
  | SetMode mode => simpa [perform, SetMode_errorFlags] using hset
  | SetCurrents currents => simpa [perform, SetCurrents_errorFlags] using hset
  | SetEnabled enabled => simpa [perform, SetEnabled_errorFlags] using hset
  | ClearStallguard => simpa [perform, ClearStallguard] using hset
  | Isr diag => simpa [perform, Isr_errorFlags] using hset
  | Init =>
    have hfail : (Init hal regs coolConf params st.1 st.2).2 = true := by
      cases h : (Init hal regs coolConf params st.1 st.2).2
      · exact absurd (by simp [perform, h]) hinit
      · rfl
    simp only [perform]
    rw [Init_state, if_pos hfail]
    simp [hset]

/-- C5: the reset-detected flag is sticky.  Once `reset_flag` is set it remains set after
any sequence of `CheckForErrors`, `SetMode`, `SetCurrents`, `SetEnabled`, `ClearStallguard`,
`Isr` and failing `Init` calls, and every `CheckForErrors` of the sequence returns true; an
`Init` call whose identity check succeeds (it returns false) leaves `reset_flag` false. -/
theorem reset_flag_sticky {D : Type} (hal : Hal D) (regs : Registers) (coolConf : Nat)
    (params : MotorParams) (calls : List Call) (w : World D) (s : TMC2130)
    (hset : s.errorFlags.reset_flag = true)
    (hinit : ∀ x ∈ (performAll hal regs coolConf params calls (w, s)).2,
      x ≠ (Call.Init, some false)) :
    ((performAll hal regs coolConf params calls (w, s)).1.2.errorFlags.reset_flag = true ∧
      ∀ x ∈ (performAll hal regs coolConf params calls (w, s)).2,
        x.1 = Call.CheckForErrors → x.2 = some true) ∧
    ∀ (w1 : World D) (s1 : TMC2130), (Init hal regs coolConf params w1 s1).2 = false →
      (Init hal regs coolConf params w1 s1).1.2.errorFlags.reset_flag = false := by
  constructor
  · induction calls generalizing w s with
    | nil => simpa [performAll] using hset
    | cons c cs ih =>
      simp only [performAll, List.mem_cons, forall_eq_or_imp] at hinit ⊢
      obtain ⟨hhead, htail⟩ := hinit
      obtain ⟨h1, h2⟩ := perform_reset_flag hal regs coolConf params (w, s) c hset hhead
      obtain ⟨h3, h4⟩ := ih (perform hal regs coolConf params (w, s) c).1.1
        (perform hal regs coolConf params (w, s) c).1.2 h1 htail
      exact ⟨h3, h2, h4⟩
  · intro w1 s1 hok
    rw [Init_state, hok]
    simp

/-- Instance of C5 on the simulated device, which answers zeros: the reset flag survives a
sequence that holds every kind of call, `Init` failing. -/
theorem reset_flag_sticky_witness :
    ((faultedDriver 7).errorFlags.reset_flag = true ∧
      ∀ x ∈ (performAll replay datasheetRegisters 0 (testParams 5)
        [Call.CheckForErrors, Call.SetMode MotorMode.Normal, Call.SetCurrents ⟨true, 20, 0⟩,
          Call.SetEnabled false, Call.ClearStallguard, Call.Isr true, Call.Init,
          Call.CheckForErrors] (⟨[], []⟩, faultedDriver 7)).2, x ≠ (Call.Init, some false)) ∧
    (((performAll replay datasheetRegisters 0 (testParams 5)
        [Call.CheckForErrors, Call.SetMode MotorMode.Normal, Call.SetCurrents ⟨true, 20, 0⟩,
          Call.SetEnabled false, Call.ClearStallguard, Call.Isr true, Call.Init,
          Call.CheckForErrors] (⟨[], []⟩, faultedDriver 7)).1.2.errorFlags.reset_flag = true ∧
      ∀ x ∈ (performAll replay datasheetRegisters 0 (testParams 5)
        [Call.CheckForErrors, Call.SetMode MotorMode.Normal, Call.SetCurrents ⟨true, 20, 0⟩,
          Call.SetEnabled false, Call.ClearStallguard, Call.Isr true, Call.Init,
          Call.CheckForErrors] (⟨[], []⟩, faultedDriver 7)).2,
        x.1 = Call.CheckForErrors → x.2 = some true) ∧
    ∀ (w1 : World (List Nat)) (s1 : TMC2130),
      (Init replay datasheetRegisters 0 (testParams 5) w1 s1).2 = false →
      (Init replay datasheetRegisters 0 (testParams 5) w1 s1).1.2.errorFlags.reset_flag
        = false) ∧
    ((Init replay datasheetRegisters 0 (testParams 5) ⟨answer 0x11 0 0 0x40, []⟩
        (faultedDriver 7)).2 = false ∧
      (Init replay datasheetRegisters 0 (testParams 5) ⟨answer 0x11 0 0 0x40, []⟩
        (faultedDriver 7)).1.2.errorFlags = ⟨false, true, true, true, true⟩) :=
  ⟨⟨by decide, by decide⟩,
    reset_flag_sticky replay datasheetRegisters 0 (testParams 5)
      [Call.CheckForErrors, Call.SetMode MotorMode.Normal, Call.SetCurrents ⟨true, 20, 0⟩,
        Call.SetEnabled false, Call.ClearStallguard, Call.Isr true, Call.Init,
        Call.CheckForErrors] ⟨[], []⟩ (faultedDriver 7) (by decide) (by decide),
    by decide⟩

/-! ## Stallguard counter -/

theorem fullStepTicks_eq (params : MotorParams) :
    fullStepTicks params = 4 * 2 ^ (8 - params.uSteps) - 1 := by
  simp [fullStepTicks, Nat.shiftLeft_eq]

/-- The calibrated value fits the `uint8_t` counter when the microstep code is 2..8. -/
theorem fullStepTicks_fits (params : MotorParams) (h2 : 2 ≤ params.uSteps)
    (h8 : params.uSteps ≤ 8) : 1 ≤ fullStepTicks params ∧ fullStepTicks params ≤ 255 := by
  obtain ⟨idx, cs, step, sg, u⟩ := params
  simp only at h2 h8
  simp only [fullStepTicks]
  interval_cases u <;> decide

theorem ClearStallguard_counter (params : MotorParams) (s : TMC2130) :
    (ClearStallguard params s).sg_counter = fullStepTicks params % 256 := rfl

/-- One `Isr` sample lowers the counter by at most one and keeps it at or below a ceiling
that fits the counter. -/
theorem Isr_counter_bounds (params : MotorParams) (diag : Bool) (s : TMC2130)
    (hfit : fullStepTicks params ≤ 255) (hle : s.sg_counter ≤ fullStepTicks params) :
    s.sg_counter - 1 ≤ (Isr params diag s).sg_counter ∧
      (Isr params diag s).sg_counter ≤ fullStepTicks params := by
  unfold Isr
  split
  · split
    · simp only [u8]; omega
    · split
      · simp only [u8]; omega
      · omega
  · omega

theorem IsrSamples_counter_bounds (params : MotorParams) (diags : List Bool) (s : TMC2130)
    (hfit : fullStepTicks params ≤ 255) (hle : s.sg_counter ≤ fullStepTicks params) :
    s.sg_counter - diags.length ≤ (IsrSamples params diags s).sg_counter ∧
      (IsrSamples params diags s).sg_counter ≤ fullStepTicks params := by
  induction diags generalizing s with
  | nil => simpa [IsrSamples] using hle
  | cons d ds ih =>
    obtain ⟨h1, h2⟩ := Isr_counter_bounds params d s hfit hle
    obtain ⟨h3, h4⟩ := ih (Isr params d s) h2
    simp only [IsrSamples, List.length_cons]
    omega

theorem IsrSamples_continuous_stall (params : MotorParams) (k : Nat) (s : TMC2130)
    (hfit : s.sg_counter ≤ 255) (hk : k ≤ s.sg_counter) :
    (IsrSamples params (List.replicate k true) s).sg_counter = s.sg_counter - k := by
  induction k generalizing s with
  | zero => simp [IsrSamples]
  | succ k ih =>
    have h1 : (Isr params true s).sg_counter = s.sg_counter - 1 := by
      unfold Isr
      split
      · simp only [if_true, u8]; omega
      · omega
    simp only [List.replicate_succ, IsrSamples]
    rw [ih (Isr params true s) (by omega) (by omega), h1]
    omega

/-- The hold-off of C7 for the microstep codes 2..8, whose calibrated value
`N = 4·2^(8−uSteps) − 1` fits the counter: after `ClearStallguard` the counter is non-zero
after any `k < N` samples, and under a continuous stall it is `N − k` after `k ≤ N` samples. -/
theorem stallguard_holdoff_of_fits (params : MotorParams) (s : TMC2130)
    (h2 : 2 ≤ params.uSteps) (h8 : params.uSteps ≤ 8) :
    (∀ diags : List Bool, diags.length < 4 * 2 ^ (8 - params.uSteps) - 1 →
      (IsrSamples params diags (ClearStallguard params s)).sg_counter ≠ 0) ∧
    (∀ k, k ≤ 4 * 2 ^ (8 - params.uSteps) - 1 →
      (IsrSamples params (List.replicate k true) (ClearStallguard params s)).sg_counter =
        4 * 2 ^ (8 - params.uSteps) - 1 - k) := by
  obtain ⟨h1, h255⟩ := fullStepTicks_fits params h2 h8
  have hc : (ClearStallguard params s).sg_counter = fullStepTicks params := by
    rw [ClearStallguard_counter]; omega
  rw [← fullStepTicks_eq]
  constructor
  · intro diags hlen
    have h := (IsrSamples_counter_bounds params diags (ClearStallguard params s) h255
      (by omega)).1
    omega
  · intro k hk
    rw [IsrSamples_continuous_stall params k _ (by omega) (by omega), hc]

/-- C7 at 256 microsteps (`uSteps = 0`, `N = 1023`): `ClearStallguard` stores 255, and a
single sample without stall then makes the counter zero, since `255 < 1023` lets the
`uint8_t` counter be incremented past 255; under a continuous stall the counter is
`255 − k` after `k` samples and is zero after 255 samples. -/
theorem stall_reported_early_at_256_microsteps :
    4 * 2 ^ (8 - (testParams 0).uSteps) - 1 = 1023 ∧
    (ClearStallguard (testParams 0) (testDriver 0)).sg_counter = 255 ∧
    (IsrSamples (testParams 0) [false]
      (ClearStallguard (testParams 0) (testDriver 0))).sg_counter = 0 ∧
    (IsrSamples (testParams 0) (List.replicate 10 true)
      (ClearStallguard (testParams 0) (testDriver 0))).sg_counter = 245 ∧
    (IsrSamples (testParams 0) (List.replicate 255 true)
      (ClearStallguard (testParams 0) (testDriver 0))).sg_counter = 0 := by
  refine ⟨by decide, by decide, by decide, by decide, ?_⟩
  rw [IsrSamples_continuous_stall (testParams 0) 255 _ (by decide) (by decide)]
  decide

/-- For the microstep codes 2..8 `ClearStallguard` stores `4·2^(8−uSteps) − 1` itself. -/
theorem ClearStallguard_counter_of_fits (params : MotorParams) (s : TMC2130)
    (h2 : 2 ≤ params.uSteps) (h8 : params.uSteps ≤ 8) :
    (ClearStallguard params s).sg_counter = 4 * 2 ^ (8 - params.uSteps) - 1 := by
  obtain ⟨h1, h255⟩ := fullStepTicks_fits params h2 h8
  rw [ClearStallguard_counter, ← fullStepTicks_eq]
  omega

/-- C9 at 256 and at 128 microsteps (`uSteps = 0` and `uSteps = 1`): the calibrated values
are 1023 and 511, and `ClearStallguard` stores 255 in both cases, the value truncated to the
`uint8_t` counter. -/
theorem ClearStallguard_truncates_fine_microstepping :
    (4 * 2 ^ (8 - (testParams 0).uSteps) - 1 = 1023 ∧
      (ClearStallguard (testParams 0) (testDriver 7)).sg_counter = 255) ∧
    (4 * 2 ^ (8 - (testParams 1).uSteps) - 1 = 511 ∧
      (ClearStallguard (testParams 1) (testDriver 7)).sg_counter = 255) := by
  decide

/-- The counter and the flag after `SetEnabled(e)`: a call that changes the flag stores
`4·2^(8−uSteps) − 1` reduced to the `uint8_t` counter, a call that does not change it leaves
the counter as it was. -/
theorem SetEnabled_counter {D : Type} (hal : Hal D) (params : MotorParams)
    (w : World D) (s : TMC2130) (e : Bool) :
    ((SetEnabled hal params w s e).2.sg_counter =
        if s.enabled = e then s.sg_counter else (4 * 2 ^ (8 - params.uSteps) - 1) % 256) ∧
    (SetEnabled hal params w s e).2.enabled = e := by
  refine ⟨?_, ?_⟩
  · simp only [SetEnabled]
    by_cases h : s.enabled = e
    · simp [h]
    · simp [h, ClearStallguard_counter, fullStepTicks_eq]
  · simp only [SetEnabled]

/-- The transitions of `SetEnabled` for the microstep codes 2..8, whose calibrated value
`4·2^(8−uSteps) − 1` fits the counter: a `SetEnabled` that changes the flag sets the counter
to that value, one that does not change it leaves the counter, and after `SetEnabled(false)`
followed by `SetEnabled(true)` the flag is true and the counter is `4·2^(8−uSteps) − 1`,
whatever the flag and the counter were before. -/
theorem SetEnabled_cycle_of_fits {D : Type} (hal : Hal D) (params : MotorParams)
    (w : World D) (s : TMC2130) (h2 : 2 ≤ params.uSteps) (h8 : params.uSteps ≤ 8) :
    (SetEnabled hal params w s (!s.enabled)).2.sg_counter = 4 * 2 ^ (8 - params.uSteps) - 1 ∧
    (SetEnabled hal params w s s.enabled).2.sg_counter = s.sg_counter ∧
    (SetEnabled hal params (SetEnabled hal params w s false).1
      (SetEnabled hal params w s false).2 true).2.enabled = true ∧
    (SetEnabled hal params (SetEnabled hal params w s false).1
      (SetEnabled hal params w s false).2 true).2.sg_counter
        = 4 * 2 ^ (8 - params.uSteps) - 1 := by
  have hfit := ClearStallguard_counter_of_fits params
  refine ⟨?_, ?_, ?_, ?_⟩
  · rw [← hfit s h2 h8]
    cases h : s.enabled <;> simp [SetEnabled, h, ClearStallguard]
  · simp [SetEnabled]
  · simp only [SetEnabled]
  · rw [← hfit s h2 h8]
    simp only [SetEnabled, ClearStallguard]
    cases h : s.enabled <;> simp

/-- C8 at 256 microsteps (`uSteps = 0`, calibrated value 1023): after `SetEnabled(false)`
followed by `SetEnabled(true)` the enabled flag is true and the counter is 255, the value
truncated to the `uint8_t` counter, both for a driver that was disabled and for one that was
enabled before; a single `SetEnabled` that changes the flag stores 255 as well. -/
theorem SetEnabled_cycle_truncates_at_256_microsteps :
    4 * 2 ^ (8 - (testParams 0).uSteps) - 1 = 1023 ∧
    ((testDriver 7).enabled = false ∧ (faultedDriver 9).enabled = true) ∧
    ((SetEnabled replay (testParams 0)
        (SetEnabled replay (testParams 0) ⟨[], []⟩ (testDriver 7) false).1
        (SetEnabled replay (testParams 0) ⟨[], []⟩ (testDriver 7) false).2 true).2.enabled = true ∧
      (SetEnabled replay (testParams 0)
        (SetEnabled replay (testParams 0) ⟨[], []⟩ (testDriver 7) false).1
        (SetEnabled replay (testParams 0) ⟨[], []⟩ (testDriver 7) false).2 true).2.sg_counter
          = 255) ∧
    ((SetEnabled replay (testParams 0)
        (SetEnabled replay (testParams 0) ⟨[], []⟩ (faultedDriver 9) false).1
        (SetEnabled replay (testParams 0) ⟨[], []⟩ (faultedDriver 9) false).2 true).2.sg_counter
          = 255) ∧
    (SetEnabled replay (testParams 0) ⟨[], []⟩ (testDriver 7) true).2.sg_counter = 255 := by
  decide

/-! ## Reading a register -/

theorem be32_bytes (data : Nat) (h : data < 2 ^ 32) :
    be32 (data / 2 ^ 24 % 256) (data / 2 ^ 16 % 256) (data / 2 ^ 8 % 256) (data % 256) = data := by
  rw [be32_eq_add _ _ _ _ (Nat.mod_lt _ (by decide)) (Nat.mod_lt _ (by decide))
    (Nat.mod_lt _ (by decide)) (Nat.mod_lt _ (by decide))]
  omega

theorem u8_of_lt (n : Nat) (h : n < 256) : u8 n = n := by
  unfold u8; omega

/-- The second transaction of `ReadRegister` transmits a zero and then the four bytes the
first transaction received after the address byte. -/
theorem ReadRegister_eq {D : Type} (hal : Hal D) (params : MotorParams) (w : World D)
    (reg : Nat) :
    ∃ a b c d e,
      (_spi_tx_rx hal params w [u8 reg, 0, 0, 0, 0]).2 = [a, b, c, d, e] ∧
      ReadRegister hal params w reg =
        ((_spi_tx_rx hal params (_spi_tx_rx hal params w [u8 reg, 0, 0, 0, 0]).1
          [0, b, c, d, e]).1,
        be32 ((_spi_tx_rx hal params (_spi_tx_rx hal params w [u8 reg, 0, 0, 0, 0]).1
            [0, b, c, d, e]).2.getD 1 0)
          ((_spi_tx_rx hal params (_spi_tx_rx hal params w [u8 reg, 0, 0, 0, 0]).1
            [0, b, c, d, e]).2.getD 2 0)
          ((_spi_tx_rx hal params (_spi_tx_rx hal params w [u8 reg, 0, 0, 0, 0]).1
            [0, b, c, d, e]).2.getD 3 0)
          ((_spi_tx_rx hal params (_spi_tx_rx hal params w [u8 reg, 0, 0, 0, 0]).1
            [0, b, c, d, e]).2.getD 4 0)) := by
  obtain ⟨a, b, c, d, e, h, -⟩ := _spi_tx_rx_five hal params w (u8 reg) 0 0 0 0
  refine ⟨a, b, c, d, e, h, ?_⟩
  simp only [ReadRegister, h, List.set_cons_zero]

/-- On the pipelined device a read returns the content of the addressed register and leaves
every register as it was. -/
theorem ReadRegister_pipelined (params : MotorParams) (reg : Nat) (chip : Chip)
    (t : List HalCall) (hreg : reg < 0x80) (hcs : params.csPin = chip.cs)
    (hval : chip.regs reg < 2 ^ 32) :
    (ReadRegister pipelined params ⟨chip, t⟩ reg).2 = chip.regs reg ∧
      (ReadRegister pipelined params ⟨chip, t⟩ reg).1.dev.regs = chip.regs := by
  have h8 : u8 reg = reg := u8_of_lt reg (by omega)
  have hb := be32_bytes (chip.regs reg) hval
  have m1 : u8 (chip.regs reg / 2 ^ 24 % 256) = chip.regs reg / 2 ^ 24 % 256 :=
    u8_of_lt _ (Nat.mod_lt _ (by decide))
  have m2 : u8 (chip.regs reg / 2 ^ 16 % 256) = chip.regs reg / 2 ^ 16 % 256 :=
    u8_of_lt _ (Nat.mod_lt _ (by decide))
  have m3 : u8 (chip.regs reg / 2 ^ 8 % 256) = chip.regs reg / 2 ^ 8 % 256 :=
    u8_of_lt _ (Nat.mod_lt _ (by decide))
  have m4 : u8 (chip.regs reg % 256) = chip.regs reg % 256 :=
    u8_of_lt _ (Nat.mod_lt _ (by decide))
  simp only [ReadRegister, _spi_tx_rx, spiLoop, spiTxRx, writePin, pipelined, Chip.finish, hcs,
    h8, if_true, if_pos hreg, Bool.false_eq_true, if_false, List.headD_cons, List.tail_cons,
    List.nil_append, List.cons_append, List.set_cons_zero, List.getD_cons_succ,
    List.getD_cons_zero, m1, m2, m3, m4, hb]
  simp

/-- C11: `ReadRegister` keeps the pipelined reply semantics.  For every register address
`reg < 0x80` and on any hardware it issues exactly two 5-byte transactions, the first with
first byte `reg` (write flag clear) and zero payload, the second with first byte 0 (not a
write), and it returns the big-endian value of bytes 1..4 received in the second
transaction.  Against a device that answers each transaction with the register requested by
the previous one, `ReadRegister(reg)` therefore returns the content of `reg` and changes no
device register. -/
theorem ReadRegister_pipelined_reply {D : Type} (hal : Hal D) (params : MotorParams)
    (w : World D) (reg : Nat) (chip : Chip) (t : List HalCall)
    (hreg : reg < 0x80) (hcs : params.csPin = chip.cs) (hval : chip.regs reg < 2 ^ 32) :
    (∃ a b c d e r0 r1 r2 r3 r4,
      (_spi_tx_rx hal params w [reg, 0, 0, 0, 0]).2 = [a, b, c, d, e] ∧
      (_spi_tx_rx hal params (_spi_tx_rx hal params w [reg, 0, 0, 0, 0]).1
        [0, b, c, d, e]).2 = [r0, r1, r2, r3, r4] ∧
      (ReadRegister hal params w reg).2 = be32 r1 r2 r3 r4 ∧
      ∃ calls, (ReadRegister hal params w reg).1.trace = w.trace ++ calls ∧
        transactions params.csPin calls = [[reg, 0, 0, 0, 0], [0, b, c, d, e]] ∧
        ∀ tx ∈ transactions params.csPin calls, isWrite tx = false) ∧
    ((ReadRegister pipelined params ⟨chip, t⟩ reg).2 = chip.regs reg ∧
      (ReadRegister pipelined params ⟨chip, t⟩ reg).1.dev.regs = chip.regs) := by
  refine ⟨?_, ReadRegister_pipelined params reg chip t hreg hcs hval⟩
  have h8 : u8 reg = reg := u8_of_lt reg (by omega)
  obtain ⟨a, b, c, d, e, h1, h2⟩ := ReadRegister_eq hal params w reg
  rw [h8] at h1 h2
  obtain ⟨r0, r1, r2, r3, r4, h3, -⟩ := _spi_tx_rx_five hal params
    (_spi_tx_rx hal params w [reg, 0, 0, 0, 0]).1 0 b c d e
  have htx : transactions params.csPin
      [HalCall.writePin params.csPin false, HalCall.spiTxRx reg, HalCall.spiTxRx 0,
        HalCall.spiTxRx 0, HalCall.spiTxRx 0, HalCall.spiTxRx 0,
        HalCall.writePin params.csPin true,
        HalCall.writePin params.csPin false, HalCall.spiTxRx 0, HalCall.spiTxRx b,
        HalCall.spiTxRx c, HalCall.spiTxRx d, HalCall.spiTxRx e,
        HalCall.writePin params.csPin true] = [[reg, 0, 0, 0, 0], [0, b, c, d, e]] := by
    simp only [transactions, transactions_five]
    simp [transactionsFrom]
  refine ⟨a, b, c, d, e, r0, r1, r2, r3, r4, h1, h3, ?_, _, ?_, htx, ?_⟩
  · rw [h2, h3]
    simp
  · rw [h2]
    simp only [_spi_tx_rx_trace]
    simp
  · intro tx hmem
    rw [htx] at hmem
    simp only [List.mem_cons, List.not_mem_nil, or_false] at hmem
    rcases hmem with rfl | rfl
    · have h := isWrite_read_request reg 0 0 0 0 hreg
      rwa [h8] at h
    · simp [isWrite]

/-- Instance of C11: reading register 0x6F of the simulated pipelined chip. -/
theorem ReadRegister_pipelined_reply_witness :
    ((0x6F : Nat) < 0x80 ∧ (testParams 5).csPin = testChip.cs ∧ testChip.regs 0x6F < 2 ^ 32) ∧
    (ReadRegister pipelined (testParams 5) ⟨testChip, []⟩ 0x6F).2 = 0x6FC0FFEE ∧
    ((∃ a b c d e r0 r1 r2 r3 r4,
      (_spi_tx_rx pipelined (testParams 5) ⟨testChip, []⟩ [0x6F, 0, 0, 0, 0]).2
        = [a, b, c, d, e] ∧
      (_spi_tx_rx pipelined (testParams 5)
        (_spi_tx_rx pipelined (testParams 5) ⟨testChip, []⟩ [0x6F, 0, 0, 0, 0]).1
        [0, b, c, d, e]).2 = [r0, r1, r2, r3, r4] ∧
      (ReadRegister pipelined (testParams 5) ⟨testChip, []⟩ 0x6F).2 = be32 r1 r2 r3 r4 ∧
      ∃ calls, (ReadRegister pipelined (testParams 5) ⟨testChip, []⟩ 0x6F).1.trace
          = [] ++ calls ∧
        transactions (testParams 5).csPin calls = [[0x6F, 0, 0, 0, 0], [0, b, c, d, e]] ∧
        ∀ tx ∈ transactions (testParams 5).csPin calls, isWrite tx = false) ∧
    ((ReadRegister pipelined (testParams 5) ⟨testChip, []⟩ 0x6F).2 = testChip.regs 0x6F ∧
      (ReadRegister pipelined (testParams 5) ⟨testChip, []⟩ 0x6F).1.dev.regs
        = testChip.regs)) :=
  ⟨⟨by decide, by decide, by decide⟩, by decide,
    ReadRegister_pipelined_reply pipelined (testParams 5) ⟨testChip, []⟩ 0x6F testChip []
      (by decide) (by decide) (by decide)⟩

/-! ## Writing currents and mode -/

/-- The calls of one `WriteRegister` and the transaction they form. -/
theorem WriteRegister_transactions {D : Type} (hal : Hal D) (params : MotorParams)
    (w : World D) (reg data : Nat) (hreg : reg < 0x80) :
    ∃ calls, (WriteRegister hal params w reg data).trace = w.trace ++ calls ∧
      transactions params.csPin calls =
        [[reg ||| 0x80, data / 2 ^ 24 % 256, data / 2 ^ 16 % 256, data / 2 ^ 8 % 256,
          data % 256]] := by
  refine ⟨[HalCall.writePin params.csPin false, HalCall.spiTxRx (reg ||| 0x80),
    HalCall.spiTxRx (data / 2 ^ 24 % 256), HalCall.spiTxRx (data / 2 ^ 16 % 256),
    HalCall.spiTxRx (data / 2 ^ 8 % 256), HalCall.spiTxRx (data % 256),
    HalCall.writePin params.csPin true], ?_, ?_⟩
  · simp only [WriteRegister]
    rw [_spi_tx_rx_trace, write_address_byte reg hreg]
    simp [u8, Nat.shiftRight_eq_div_pow]
  · simp only [transactions, transactions_five]
    simp [transactionsFrom]

/-- The word `ihold_irun` of `SetCurrents` as a sum of its three fields. -/
theorem ihold_irun_eq (iHold iRun : Nat) :
    u32 ((iHold &&& 0x1F) <<< 0) ||| u32 ((iRun &&& 0x1F) <<< 8) ||| u32 ((15 &&& 0x0F) <<< 16)
      = iHold % 32 + iRun % 32 * 2 ^ 8 + 15 * 2 ^ 16 := by
  have e1 : iHold &&& 0x1F = iHold % 32 := Nat.and_pow_two_sub_one_eq_mod iHold 5
  have e2 : iRun &&& 0x1F = iRun % 32 := Nat.and_pow_two_sub_one_eq_mod iRun 5
  have e3 : (15 : Nat) &&& 0x0F = 15 := by decide
  have a1 : u32 ((iHold % 32) <<< 0) = iHold % 32 := by
    simp only [u32, Nat.shiftLeft_eq]; omega
  have a2 : u32 ((iRun % 32) <<< 8) = iRun % 32 * 2 ^ 8 := by
    simp only [u32, Nat.shiftLeft_eq]; omega
  have a3 : u32 ((15 : Nat) <<< 16) = 15 * 2 ^ 16 := by decide
  rw [e1, e2, e3, a1, a2, a3]
  rw [Nat.or_comm (iHold % 32),
    or_eq_add_of_dvd 8 (iRun % 32 * 2 ^ 8) (iHold % 32) (Dvd.intro_left _ rfl) (by omega)]
  rw [Nat.or_comm,
    or_eq_add_of_dvd 16 (15 * 2 ^ 16) (iRun % 32 * 2 ^ 8 + iHold % 32) (Dvd.intro_left _ rfl)
      (by omega)]
  omega

/-- C12: `SetCurrents` stores the given currents and writes exactly one register,
IHOLD_IRUN.  For `iRun ≤ 31` and `iHold ≤ 31` the written word has bits 0..4 equal to
`iHold`, bits 8..12 equal to `iRun`, bits 16..19 equal to 15 and all other bits zero, so both
currents are recovered from the word; the currents of the three configured axes (pulley
20/0, selector 31/5, idler 31/23) are within this range. -/
theorem SetCurrents_writes_ihold_irun {D : Type} (hal : Hal D) (regs : Registers)
    (params : MotorParams) (w : World D) (s : TMC2130) (currents : MotorCurrents)
    (hRun : currents.iRun ≤ 31) (hHold : currents.iHold ≤ 31)
    (hreg : regs.IHOLD_IRUN < 0x80) :
    (SetCurrents hal regs params w s currents).2 = { s with currents := currents } ∧
    (∃ word calls,
      (SetCurrents hal regs params w s currents).1.trace = w.trace ++ calls ∧
      transactions params.csPin calls =
        [[regs.IHOLD_IRUN ||| 0x80, word / 2 ^ 24 % 256, word / 2 ^ 16 % 256,
          word / 2 ^ 8 % 256, word % 256]] ∧
      word % 2 ^ 5 = currents.iHold ∧ word / 2 ^ 8 % 2 ^ 5 = currents.iRun ∧
      word / 2 ^ 16 % 2 ^ 4 = 15 ∧
      word / 2 ^ 5 % 2 ^ 3 = 0 ∧ word / 2 ^ 13 % 2 ^ 3 = 0 ∧ word / 2 ^ 20 = 0) ∧
    ((pulley.iRun, pulley.iHold) = (20, 0) ∧ (selector.iRun, selector.iHold) = (31, 5) ∧
      (idler.iRun, idler.iHold) = (31, 23)) := by
  refine ⟨rfl, ⟨currents.iHold % 32 + currents.iRun % 32 * 2 ^ 8 + 15 * 2 ^ 16, ?_⟩,
    by decide⟩
  obtain ⟨calls, h1, h2⟩ := WriteRegister_transactions hal params w regs.IHOLD_IRUN
    (currents.iHold % 32 + currents.iRun % 32 * 2 ^ 8 + 15 * 2 ^ 16) hreg
  refine ⟨calls, ?_, h2, ?_, ?_, ?_, ?_, ?_, ?_⟩
  · simp only [SetCurrents, ihold_irun_eq]
    exact h1
  all_goals omega

/-- Instance of C12: the currents of the idler axis. -/
theorem SetCurrents_writes_ihold_irun_witness :
    (idler.iRun ≤ 31 ∧ idler.iHold ≤ 31 ∧ datasheetRegisters.IHOLD_IRUN < 0x80) ∧
    (transactions (testParams 4).csPin
      (SetCurrents replay datasheetRegisters (testParams 4) ⟨[], []⟩ (testDriver 0)
        ⟨idler.vSense, idler.iRun, idler.iHold⟩).1.trace
      = [[0x90, 0x00, 0x0F, 0x1F, 0x17]]) ∧
    ((SetCurrents replay datasheetRegisters (testParams 4) ⟨[], []⟩ (testDriver 0)
        ⟨idler.vSense, idler.iRun, idler.iHold⟩).2
      = { testDriver 0 with currents := ⟨idler.vSense, idler.iRun, idler.iHold⟩ } ∧
    (∃ word calls,
      (SetCurrents replay datasheetRegisters (testParams 4) ⟨[], []⟩ (testDriver 0)
        ⟨idler.vSense, idler.iRun, idler.iHold⟩).1.trace = [] ++ calls ∧
      transactions (testParams 4).csPin calls =
        [[datasheetRegisters.IHOLD_IRUN ||| 0x80, word / 2 ^ 24 % 256, word / 2 ^ 16 % 256,
          word / 2 ^ 8 % 256, word % 256]] ∧
      word % 2 ^ 5 = idler.iHold ∧ word / 2 ^ 8 % 2 ^ 5 = idler.iRun ∧
      word / 2 ^ 16 % 2 ^ 4 = 15 ∧
      word / 2 ^ 5 % 2 ^ 3 = 0 ∧ word / 2 ^ 13 % 2 ^ 3 = 0 ∧ word / 2 ^ 20 = 0) ∧
    ((pulley.iRun, pulley.iHold) = (20, 0) ∧ (selector.iRun, selector.iHold) = (31, 5) ∧
      (idler.iRun, idler.iHold) = (31, 23))) :=
  ⟨⟨by decide, by decide, by decide⟩, by decide,
    SetCurrents_writes_ihold_irun replay datasheetRegisters (testParams 4) ⟨[], []⟩
      (testDriver 0) ⟨idler.vSense, idler.iRun, idler.iHold⟩ (by decide) (by decide)
      (by decide)⟩

/-- C13: `SetMode` stores the requested mode and writes exactly one register, the velocity
threshold TPWMTHRS, with 70 when the mode is Stealth and 0xFFF00 for Normal; both values fit
the 20-bit field, the Normal threshold is greater than the Stealth threshold, and the
stallguard counter, the currents and the error flags are unchanged. -/
theorem SetMode_writes_threshold {D : Type} (hal : Hal D) (regs : Registers)
    (params : MotorParams) (w : World D) (s : TMC2130) (hreg : regs.TPWMTHRS < 0x80) :
    (∀ mode : MotorMode,
      (SetMode hal regs params w s mode).2.mode = mode ∧
      (SetMode hal regs params w s mode).2.sg_counter = s.sg_counter ∧
      (SetMode hal regs params w s mode).2.currents = s.currents ∧
      (SetMode hal regs params w s mode).2.errorFlags = s.errorFlags ∧
      (SetMode hal regs params w s mode).2.enabled = s.enabled) ∧
    (∃ stealth normal callsS callsN,
      (SetMode hal regs params w s MotorMode.Stealth).1.trace = w.trace ++ callsS ∧
      transactions params.csPin callsS =
        [[regs.TPWMTHRS ||| 0x80, stealth / 2 ^ 24 % 256, stealth / 2 ^ 16 % 256,
          stealth / 2 ^ 8 % 256, stealth % 256]] ∧
      (SetMode hal regs params w s MotorMode.Normal).1.trace = w.trace ++ callsN ∧
      transactions params.csPin callsN =
        [[regs.TPWMTHRS ||| 0x80, normal / 2 ^ 24 % 256, normal / 2 ^ 16 % 256,
          normal / 2 ^ 8 % 256, normal % 256]] ∧
      stealth = 70 ∧ normal = 0xFFF00 ∧ stealth < 2 ^ 20 ∧ normal < 2 ^ 20 ∧
      stealth < normal) := by
  refine ⟨fun mode => ⟨rfl, rfl, rfl, rfl, rfl⟩, ?_⟩
  obtain ⟨c1, h1, h2⟩ := WriteRegister_transactions hal params w regs.TPWMTHRS 70 hreg
  obtain ⟨c2, h3, h4⟩ := WriteRegister_transactions hal params w regs.TPWMTHRS 0xFFF00 hreg
  exact ⟨70, 0xFFF00, c1, c2, h1, h2, h3, h4, rfl, rfl, by decide, by decide, by decide⟩

/-- Instance of C13: the two mode switches on the simulated device. -/
theorem SetMode_writes_threshold_witness :
    datasheetRegisters.TPWMTHRS < 0x80 ∧
    (transactions (testParams 5).csPin
      (SetMode replay datasheetRegisters (testParams 5) ⟨[], []⟩ (faultedDriver 7)
        MotorMode.Normal).1.trace = [[0x93, 0x00, 0x0F, 0xFF, 0x00]] ∧
    transactions (testParams 5).csPin
      (SetMode replay datasheetRegisters (testParams 5) ⟨[], []⟩ (faultedDriver 7)
        MotorMode.Stealth).1.trace = [[0x93, 0x00, 0x00, 0x00, 70]]) ∧
    (SetMode replay datasheetRegisters (testParams 5) ⟨[], []⟩ (faultedDriver 7)
      MotorMode.Normal).2 = { faultedDriver 7 with mode := MotorMode.Normal } ∧
    (∀ mode : MotorMode,
      (SetMode replay datasheetRegisters (testParams 5) ⟨[], []⟩ (faultedDriver 7) mode).2.mode
        = mode ∧
      (SetMode replay datasheetRegisters (testParams 5) ⟨[], []⟩ (faultedDriver 7)
        mode).2.sg_counter = (faultedDriver 7).sg_counter ∧
      (SetMode replay datasheetRegisters (testParams 5) ⟨[], []⟩ (faultedDriver 7)
        mode).2.currents = (faultedDriver 7).currents ∧
      (SetMode replay datasheetRegisters (testParams 5) ⟨[], []⟩ (faultedDriver 7)
        mode).2.errorFlags = (faultedDriver 7).errorFlags ∧
      (SetMode replay datasheetRegisters (testParams 5) ⟨[], []⟩ (faultedDriver 7)
        mode).2.enabled = (faultedDriver 7).enabled) :=
  ⟨by decide, by decide, by decide,
    (SetMode_writes_threshold replay datasheetRegisters (testParams 5) ⟨[], []⟩
      (faultedDriver 7) (by decide)).1⟩

/-! ## Slot positions -/

/-- C14: the named slot positions are a base offset plus a multiple of a fixed pitch given
by the slot index.  For every index `i` in `0..toolCount`,
`selectorSlotPositions[i] = SelectorOffsetFromMax + i·SelectorSlotDistance` (1 mm + i·14 mm)
and `idlerSlotPositions[i] = IdlerOffsetFromHome + (toolCount − i)·IdlerSlotDistance`
(18° + (5 − i)·40°); the reserved index `toolCount` is the parked position (selector 71 mm,
idler 18°), and consecutive entries of each table differ by exactly one pitch. -/
theorem slot_positions_offset_plus_pitch :
    (selectorSlotPositions.length = toolCount + 1 ∧
      idlerSlotPositions.length = toolCount + 1) ∧
    (∀ i : Fin (toolCount + 1),
      selectorSlotPositions[i.val]? = some (SelectorOffsetFromMax + i.val * SelectorSlotDistance) ∧
      selectorSlotPositions[i.val]? = some (1 + i.val * 14) ∧
      idlerSlotPositions[i.val]? =
        some (IdlerOffsetFromHome + (toolCount - i.val : Nat) * IdlerSlotDistance) ∧
      idlerSlotPositions[i.val]? = some (18 + (5 - i.val : Nat) * 40)) ∧
    (selectorSlotPositions[toolCount]? = some 71 ∧
      idlerSlotPositions[toolCount]? = some IdlerOffsetFromHome ∧
      idlerSlotPositions[toolCount]? = some 18) ∧
    (∀ i : Fin toolCount,
      selectorSlotPositions.getD (i.val + 1) 0 - selectorSlotPositions.getD i.val 0
        = SelectorSlotDistance ∧
      idlerSlotPositions.getD i.val 0 - idlerSlotPositions.getD (i.val + 1) 0
        = IdlerSlotDistance) := by
  refine ⟨⟨rfl, rfl⟩, ?_, ?_, ?_⟩
  · intro i
    fin_cases i <;>
      norm_num [selectorSlotPositions, idlerSlotPositions, SelectorOffsetFromMax,
        SelectorSlotDistance, IdlerOffsetFromHome, IdlerSlotDistance, toolCount]
  · norm_num [selectorSlotPositions, idlerSlotPositions, SelectorOffsetFromMax,
      SelectorSlotDistance, IdlerOffsetFromHome, IdlerSlotDistance, toolCount]
  · intro i
    fin_cases i <;>
      norm_num [selectorSlotPositions, idlerSlotPositions, SelectorOffsetFromMax,
        SelectorSlotDistance, IdlerOffsetFromHome, IdlerSlotDistance, toolCount]

end tmc2130
end hal

/-! # Circular buffer: first in, first out -/

namespace CircularBuffer

/-- The wrap of the cursors is a multiple of the capacity and larger than it. -/
theorem wrap_spec (size : Nat) (h0 : 0 < size) : size ∣ wrap size ∧ size < wrap size := by
  unfold wrap
  split
  · next h => exact h
  · exact ⟨Dvd.intro_left 2 rfl, by omega⟩

/-- The cursors of a capacity up to 128 are values of a `uint8_t`. -/
theorem wrap_le (size : Nat) (h : size ≤ 128) : wrap size ≤ 256 := by
  unfold wrap
  split <;> omega

theorem count_eq {α : Type} (b : CircularBuffer α) (hh : b.head < wrap b.size)
    (ht : b.tail < wrap b.size) :
    b.count = if b.tail ≤ b.head then b.head - b.tail
      else b.head + wrap b.size - b.tail := by
  unfold count
  generalize wrap b.size = W at hh ht
  split
  · next hle =>
    have e : b.head + W - b.tail = (b.head - b.tail) + W := by omega
    rw [e, Nat.add_mod_right, Nat.mod_eq_of_lt (by omega)]
  · next hgt =>
    rw [Nat.mod_eq_of_lt (by omega)]

theorem next_eq {α : Type} (b : CircularBuffer α) (c : Nat) (hc : c < wrap b.size) :
    b.next c = if c + 1 = wrap b.size then 0 else c + 1 := by
  unfold next
  generalize wrap b.size = W at hc
  split
  · next h => rw [h, Nat.mod_self]
  · next h => exact Nat.mod_eq_of_lt (by omega)

/-- The slot of a cursor moved across the wrap. -/
theorem mask_add_wrap {α : Type} (b : CircularBuffer α) (h0 : 0 < b.size) (x : Nat) :
    b.mask (x + wrap b.size) = b.mask x := by
  obtain ⟨⟨k, hk⟩, -⟩ := wrap_spec b.size h0
  unfold mask
  rw [hk, Nat.add_mul_mod_self_left]

theorem mask_head {α : Type} (b : CircularBuffer α) (h0 : 0 < b.size)
    (hh : b.head < wrap b.size) (ht : b.tail < wrap b.size) :
    b.mask b.head = b.mask (b.tail + b.count) := by
  have hc := count_eq b hh ht
  split at hc
  · have e : b.tail + b.count = b.head := by omega
    rw [e]
  · have e : b.tail + b.count = b.head + wrap b.size := by omega
    rw [e, mask_add_wrap b h0]

theorem empty_iff {α : Type} (b : CircularBuffer α) (hw : b.WellFormed) :
    b.empty = true ↔ b.count = 0 := by
  obtain ⟨hc, hz, hpos⟩ := hw
  simp only [empty, beq_iff_eq]
  rcases Nat.eq_zero_or_pos b.size with h0 | h0
  · obtain ⟨h1, h2⟩ := hz h0
    constructor
    · intro _; omega
    · intro _; rw [h1, h2]
  · obtain ⟨hh, ht⟩ := hpos h0
    have hce := count_eq b hh ht
    split at hce <;> omega

theorem full_iff {α : Type} (b : CircularBuffer α) : b.full = true ↔ b.count = b.size := by
  simp [full]

theorem create_wellFormed {α : Type} (size : Nat) (mem : Nat → α) :
    (create size mem).WellFormed ∧ (create size mem).contents = [] := by
  have hcount : (create size mem).count = 0 := by
    simp [count, create]
  refine ⟨⟨?_, fun _ => ⟨rfl, rfl⟩, ?_⟩, ?_⟩
  · rw [hcount]; exact Nat.zero_le _
  · intro h0
    have := (wrap_spec size h0).2
    simp only [create]
    omega
  · simp [contents, hcount]

theorem length_contents {α : Type} (b : CircularBuffer α) : b.contents.length = b.count := by
  simp [contents]

/-- A push on a buffer that is not full appends the element to the contents. -/
theorem push_of_not_full {α : Type} (b : CircularBuffer α) (x : α) (hw : b.WellFormed)
    (hnf : b.full = false) :
    (b.push x).2 = true ∧ (b.push x).1.WellFormed ∧
      (b.push x).1.contents = b.contents ++ [x] := by
  obtain ⟨hc, hz, hpos⟩ := hw
  have hne : b.count ≠ b.size := by
    intro h
    rw [(full_iff b).mpr h] at hnf
    exact Bool.noConfusion hnf
  have hcl : b.count < b.size := Nat.lt_of_le_of_ne hc hne
  have h0 : 0 < b.size := by omega
  obtain ⟨hh, ht⟩ := hpos h0
  obtain ⟨hWd, hWlt⟩ := wrap_spec b.size h0
  have hm := mask_head b h0 hh ht
  have hsz : (b.push x).1.size = b.size := by simp [push, hnf]
  have htl : (b.push x).1.tail = b.tail := by simp [push, hnf]
  have hhd : (b.push x).1.head = b.next b.head := by simp [push, hnf]
  have hnext := next_eq b b.head hh
  have hce := count_eq b hh ht
  have hh2 : (b.push x).1.head < wrap b.size := by
    rw [hhd, hnext]; split <;> omega
  have hcount : (b.push x).1.count = b.count + 1 := by
    have hce2 := count_eq (b.push x).1 (by rw [hsz]; exact hh2) (by rw [hsz, htl]; exact ht)
    rw [hsz, htl, hhd, hnext] at hce2
    rw [hce2]
    split at hce <;> split <;> split <;> omega
  refine ⟨by simp [push, hnf], ⟨?_, ?_, ?_⟩, ?_⟩
  · rw [hcount, hsz]; exact hcl
  · intro h; rw [hsz] at h; omega
  · intro _
    rw [hsz, htl]
    exact ⟨hh2, ht⟩
  · simp only [contents, hcount, List.range_succ, List.map_append, List.map_cons, List.map_nil]
    congr 1
    · apply List.map_congr_left
      intro i hi
      have hi2 : i < b.count := List.mem_range.mp hi
      simp only [push, hnf, Bool.false_eq_true, if_false, mask]
      have hneq : (b.tail + i) % b.size ≠ b.head % b.size := by
        intro heq
        have heq2 : b.tail + i ≡ b.tail + b.count [MOD b.size] := by
          simpa [Nat.ModEq, mask] using heq.trans hm
        have h4 := Nat.ModEq.add_left_cancel' b.tail heq2
        rw [Nat.ModEq, Nat.mod_eq_of_lt (by omega), Nat.mod_eq_of_lt hcl] at h4
        omega
      rw [if_neg hneq]
    · simp only [push, hnf, Bool.false_eq_true, if_false]
      have : (b.tail + b.count) % b.size = b.head % b.size := by
        simpa [mask] using hm.symm
      simp [mask, this]

/-- A pop on a buffer that is not empty hands out the oldest element and removes it. -/
theorem pop_of_not_empty {α : Type} (b : CircularBuffer α) (hw : b.WellFormed)
    (hne : b.empty = false) :
    ∃ rest, b.contents = b.front :: rest ∧ (b.pop).2 = some b.front ∧
      (b.pop).1.WellFormed ∧ (b.pop).1.contents = rest := by
  have hpos0 : b.count ≠ 0 := by
    intro h
    rw [(empty_iff b hw).mpr h] at hne
    exact Bool.noConfusion hne
  obtain ⟨hc, hz, hpos⟩ := hw
  have h0 : 0 < b.size := by omega
  obtain ⟨hh, ht⟩ := hpos h0
  obtain ⟨hWd, hWlt⟩ := wrap_spec b.size h0
  obtain ⟨n, hn⟩ : ∃ n, b.count = n + 1 := ⟨b.count - 1, by omega⟩
  have hsz : (b.pop).1.size = b.size := by simp [pop, hne]
  have htl : (b.pop).1.tail = b.next b.tail := by simp [pop, hne]
  have hhd : (b.pop).1.head = b.head := by simp [pop, hne]
  have hnext := next_eq b b.tail ht
  have hce := count_eq b hh ht
  have ht2 : (b.pop).1.tail < wrap b.size := by
    rw [htl, hnext]; split <;> omega
  have hcount : (b.pop).1.count = n := by
    have hce2 := count_eq (b.pop).1 (by rw [hsz, hhd]; exact hh) (by rw [hsz]; exact ht2)
    rw [hsz, htl, hhd, hnext] at hce2
    rw [hce2]
    split at hce <;> split <;> split <;> omega
  refine ⟨(List.range n).map fun i => b.data (b.mask (b.tail + (i + 1))), ?_, ?_, ?_, ?_⟩
  · simp only [contents, hn, List.range_succ_eq_map, List.map_cons, List.map_map, front]
    rfl
  · simp [pop, hne]
  · refine ⟨?_, ?_, ?_⟩
    · rw [hcount, hsz]; omega
    · intro h; rw [hsz] at h; omega
    · intro _
      rw [hsz, hhd]
      exact ⟨hh, ht2⟩
  · simp only [contents, hcount]
    apply List.map_congr_left
    intro i _
    have hdata : (b.pop).1.data = b.data := by simp [pop, hne]
    have hmask : ∀ c, (b.pop).1.mask c = b.mask c := by
      intro c; simp [mask, hsz]
    rw [hdata, hmask, htl, hnext]
    split
    · next hwrap =>
      have e : b.tail + (i + 1) = i + wrap b.size := by omega
      rw [e, mask_add_wrap b h0, Nat.zero_add]
    · rw [Nat.add_assoc, Nat.add_comm 1 i]

theorem push_of_full {α : Type} (b : CircularBuffer α) (x : α) (hf : b.full = true) :
    b.push x = (b, false) := by
  simp [push, hf]

theorem pop_of_empty {α : Type} (b : CircularBuffer α) (he : b.empty = true) :
    b.pop = (b, none) := by
  simp [pop, he]

theorem push_size {α : Type} (b : CircularBuffer α) (x : α) : (b.push x).1.size = b.size := by
  unfold push
  split <;> rfl

theorem pop_size {α : Type} (b : CircularBuffer α) : (b.pop).1.size = b.size := by
  unfold pop
  split <;> rfl

/-- One call keeps the buffer well formed and keeps the successful pushes equal to the
successful pops followed by the resident elements. -/
theorem step_invariant {α : Type} (r : Run α) (op : Op α) (hw : r.buffer.WellFormed)
    (hq : r.pushed = r.popped ++ r.buffer.contents) :
    (step r op).buffer.WellFormed ∧ (step r op).buffer.size = r.buffer.size ∧
      (step r op).pushed = (step r op).popped ++ (step r op).buffer.contents := by
  cases op with
  | push x =>
    cases hf : r.buffer.full
    · obtain ⟨h1, h2, h3⟩ := push_of_not_full r.buffer x hw hf
      simp only [step, h1, if_true]
      exact ⟨h2, push_size _ _, by rw [h3, hq, List.append_assoc]⟩
    · have h1 := push_of_full r.buffer x hf
      simp only [step, h1, Bool.false_eq_true, if_false]
      exact ⟨hw, trivial, hq⟩
  | pop =>
    cases he : r.buffer.empty
    · obtain ⟨rest, h1, h2, h3, h4⟩ := pop_of_not_empty r.buffer hw he
      simp only [step, h2]
      exact ⟨h3, pop_size _, by rw [h4, hq, h1]; simp⟩
    · have h1 := pop_of_empty r.buffer he
      simp only [step, h1]
      exact ⟨hw, trivial, hq⟩

theorem exec_invariant {α : Type} (ops : List (Op α)) (r : Run α) (hw : r.buffer.WellFormed)
    (hq : r.pushed = r.popped ++ r.buffer.contents) :
    (exec r ops).buffer.WellFormed ∧ (exec r ops).buffer.size = r.buffer.size ∧
      (exec r ops).pushed = (exec r ops).popped ++ (exec r ops).buffer.contents := by
  induction ops generalizing r with
  | nil => exact ⟨hw, rfl, hq⟩
  | cons op ops ih =>
    obtain ⟨h1, h2, h3⟩ := step_invariant r op hw hq
    obtain ⟨h4, h5, h6⟩ := ih (step r op) h1 h3
    simp only [exec, List.foldl_cons] at h4 h5 h6 ⊢
    exact ⟨h4, h5.trans h2, h6⟩

/-- What a sequence of calls leaves behind, started on an empty buffer. -/
theorem exec_create {α : Type} (size : Nat) (mem : Nat → α) (ops : List (Op α)) :
    (exec ⟨create size mem, [], []⟩ ops).buffer.WellFormed ∧
      (exec ⟨create size mem, [], []⟩ ops).buffer.size = size ∧
      (exec ⟨create size mem, [], []⟩ ops).pushed =
        (exec ⟨create size mem, [], []⟩ ops).popped ++
          (exec ⟨create size mem, [], []⟩ ops).buffer.contents := by
  obtain ⟨hw, he⟩ := create_wellFormed size mem
  exact exec_invariant ops ⟨create size mem, [], []⟩ hw (by simp [he])

/-- One call on the ring is one call on the queue of its resident elements. -/
theorem step_refines {α : Type} (r : Run α) (op : Op α) (hw : r.buffer.WellFormed) :
    ((step r op).buffer.contents, (step r op).pushed, (step r op).popped) =
      queueStep r.buffer.size (r.buffer.contents, r.pushed, r.popped) op := by
  cases op with
  | push x =>
    cases hf : r.buffer.full
    · obtain ⟨h1, h2, h3⟩ := push_of_not_full r.buffer x hw hf
      have hne : r.buffer.count ≠ r.buffer.size := by
        intro h
        rw [(full_iff r.buffer).mpr h] at hf
        exact Bool.noConfusion hf
      have hl : r.buffer.contents.length < r.buffer.size := by
        rw [length_contents]; exact Nat.lt_of_le_of_ne hw.1 hne
      simp only [step, h1, if_true, queueStep, hl, h3]
    · have h1 := push_of_full r.buffer x hf
      have hl : ¬ r.buffer.contents.length < r.buffer.size := by
        rw [length_contents, (full_iff r.buffer).mp hf]
        exact Nat.lt_irrefl _
      simp only [step, h1, Bool.false_eq_true, if_false, queueStep, hl]
  | pop =>
    cases he : r.buffer.empty
    · obtain ⟨rest, h1, h2, h3, h4⟩ := pop_of_not_empty r.buffer hw he
      simp only [step, h2, queueStep, h1, h4]
    · have h1 := pop_of_empty r.buffer he
      have hnil : r.buffer.contents = [] := by
        apply List.eq_nil_of_length_eq_zero
        rw [length_contents]
        exact (empty_iff r.buffer hw).mp he
      simp only [step, h1, queueStep, hnil]

/-- A sequence of calls on the ring is the same sequence on the queue as the spec words
it. -/
theorem exec_refines {α : Type} (ops : List (Op α)) (r : Run α) (hw : r.buffer.WellFormed)
    (hq : r.pushed = r.popped ++ r.buffer.contents) :
    ((exec r ops).buffer.contents, (exec r ops).pushed, (exec r ops).popped) =
      queueExec r.buffer.size (r.buffer.contents, r.pushed, r.popped) ops := by
  induction ops generalizing r with
  | nil => rfl
  | cons op ops ih =>
    obtain ⟨h1, h2, h3⟩ := step_invariant r op hw hq
    have h4 := ih (step r op) h1 h3
    rw [h2, step_refines r op hw] at h4
    simpa only [exec, queueExec, List.foldl_cons] using h4

/-- The cursors count the successful pushes and pops on their circle. -/
theorem step_cursors {α : Type} (r : Run α) (op : Op α)
    (hh : r.buffer.head = r.pushed.length % wrap r.buffer.size)
    (ht : r.buffer.tail = r.popped.length % wrap r.buffer.size) :
    (step r op).buffer.size = r.buffer.size ∧
      (step r op).buffer.head = (step r op).pushed.length % wrap r.buffer.size ∧
      (step r op).buffer.tail = (step r op).popped.length % wrap r.buffer.size := by
  cases op with
  | push x =>
    cases hf : r.buffer.full
    · simp only [step, push, hf, Bool.false_eq_true, if_false, if_true, next,
        List.length_append, List.length_singleton]
      exact ⟨trivial, by rw [hh, Nat.mod_add_mod], ht⟩
    · simp only [step, push, hf, if_true, Bool.false_eq_true, if_false]
      exact ⟨trivial, hh, ht⟩
  | pop =>
    cases he : r.buffer.empty
    · simp only [step, pop, he, Bool.false_eq_true, if_false, next,
        List.length_append, List.length_singleton]
      exact ⟨trivial, hh, by rw [ht, Nat.mod_add_mod]⟩
    · simp only [step, pop, he, if_true]
      exact ⟨trivial, hh, ht⟩

theorem exec_cursors {α : Type} (ops : List (Op α)) (r : Run α)
    (hh : r.buffer.head = r.pushed.length % wrap r.buffer.size)
    (ht : r.buffer.tail = r.popped.length % wrap r.buffer.size) :
    (exec r ops).buffer.head = (exec r ops).pushed.length % wrap r.buffer.size ∧
      (exec r ops).buffer.tail = (exec r ops).popped.length % wrap r.buffer.size := by
  induction ops generalizing r with
  | nil => exact ⟨hh, ht⟩
  | cons op ops ih =>
    obtain ⟨h0, h1, h2⟩ := step_cursors r op hh ht
    have h3 := ih (step r op) (by rw [h0]; exact h1) (by rw [h0]; exact h2)
    rw [h0] at h3
    simpa only [exec, List.foldl_cons] using h3

/-- The cursors of a run from the empty buffer count its successful pushes and pops. -/
theorem exec_create_cursors {α : Type} (size : Nat) (mem : Nat → α) (ops : List (Op α)) :
    (exec ⟨create size mem, [], []⟩ ops).buffer.head =
        (exec ⟨create size mem, [], []⟩ ops).pushed.length % wrap size ∧
      (exec ⟨create size mem, [], []⟩ ops).buffer.tail =
        (exec ⟨create size mem, [], []⟩ ops).popped.length % wrap size :=
  exec_cursors ops ⟨create size mem, [], []⟩ (Nat.zero_mod _).symm (Nat.zero_mod _).symm

theorem queue_fillAndDrain (n : Nat) (pushed popped : List Nat) :
    queueExec 4 ([], pushed, popped) (List.replicate n fillAndDrain).flatten =
      ([], pushed ++ (List.replicate n [0, 1, 2, 3]).flatten,
        popped ++ (List.replicate n [0, 1, 2, 3]).flatten) := by
  induction n generalizing pushed popped with
  | zero => simp [queueExec]
  | succ n ih =>
    have hone : queueExec 4 ([], pushed, popped) fillAndDrain =
        ([], pushed ++ [0, 1, 2, 3], popped ++ [0, 1, 2, 3]) := by
      simp [queueExec, queueStep, fillAndDrain]
    have hsplit : queueExec 4 ([], pushed, popped)
        (List.replicate (n + 1) fillAndDrain).flatten =
        queueExec 4 (queueExec 4 ([], pushed, popped) fillAndDrain)
          (List.replicate n fillAndDrain).flatten := by
      simp only [queueExec, List.replicate_succ, List.flatten_cons, List.foldl_append]
    rw [hsplit, hone, ih]
    simp [List.replicate_succ]

/-- The unit test `circular_buffer::wrap_around` on the ring of capacity 4: every loop hands
out 0, 1, 2, 3, the buffer is empty afterwards and both cursors have advanced by
`2 + 4·loops` on the 8-bit circle. -/
theorem wrapAround_run (loops : Nat) :
    (exec ⟨create 4 (fun _ => 0), [], []⟩ (wrapAround loops)).buffer.contents = [] ∧
    (exec ⟨create 4 (fun _ => 0), [], []⟩ (wrapAround loops)).pushed =
      [5, 5] ++ (List.replicate loops [0, 1, 2, 3]).flatten ∧
    (exec ⟨create 4 (fun _ => 0), [], []⟩ (wrapAround loops)).popped =
      [5, 5] ++ (List.replicate loops [0, 1, 2, 3]).flatten ∧
    (exec ⟨create 4 (fun _ => 0), [], []⟩ (wrapAround loops)).buffer.head
      = (2 + 4 * loops) % 256 ∧
    (exec ⟨create 4 (fun _ => 0), [], []⟩ (wrapAround loops)).buffer.tail
      = (2 + 4 * loops) % 256 := by
  obtain ⟨hw, he⟩ := create_wellFormed 4 (fun _ => (0 : Nat))
  have href := exec_refines (wrapAround loops) ⟨create 4 (fun _ => 0), [], []⟩ hw
    (by simp [he])
  have hq : queueExec 4 ([], [], []) (wrapAround loops) =
      ([], [5, 5] ++ (List.replicate loops [0, 1, 2, 3]).flatten,
        [5, 5] ++ (List.replicate loops [0, 1, 2, 3]).flatten) := by
    have hstart : queueExec 4 ([], [], []) [Op.push 5, Op.pop, Op.push 5, Op.pop] =
        ([], [5, 5], [5, 5]) := by
      simp [queueExec, queueStep]
    have hsplit : queueExec 4 ([], [], []) (wrapAround loops) =
        queueExec 4 (queueExec 4 ([], [], []) [Op.push 5, Op.pop, Op.push 5, Op.pop])
          (List.replicate loops fillAndDrain).flatten := by
      simp only [queueExec, wrapAround, List.foldl_append]
    rw [hsplit, hstart, queue_fillAndDrain]
  have hsize : (create 4 (fun _ => (0 : Nat))).size = 4 := rfl
  simp only [he, hsize] at href
  rw [hq] at href
  have h1 := congrArg Prod.fst href
  have h2 := congrArg (fun x => x.2.1) href
  have h3 := congrArg (fun x => x.2.2) href
  simp only at h1 h2 h3
  have hwrap : wrap 4 = 256 := by decide
  obtain ⟨hc1, hc2⟩ := exec_create_cursors 4 (fun _ => (0 : Nat)) (wrapAround loops)
  rw [hwrap] at hc1 hc2
  refine ⟨h1, h2, h3, ?_, ?_⟩
  · rw [hc1, h2]; simp; omega
  · rw [hc2, h3]; simp; omega

/-- A run on capacity 3, whose cursors wrap at 6: the fourth push in a row is refused and
the elements come out in push order. -/
theorem acrossWrap_run :
    (exec ⟨create 3 (fun _ => 0), [], []⟩ acrossWrap).pushed = [1, 2, 3, 4, 5, 10, 11, 12] ∧
    (exec ⟨create 3 (fun _ => 0), [], []⟩ acrossWrap).popped = [1, 2, 3, 4, 5, 10, 11, 12] ∧
    (exec ⟨create 3 (fun _ => 0), [], []⟩ acrossWrap).buffer.contents = [] ∧
    (exec ⟨create 3 (fun _ => 0), [], []⟩ acrossWrap).buffer.head = 2 ∧
    (exec ⟨create 3 (fun _ => 0), [], []⟩ acrossWrap).buffer.tail = 2 := by
  obtain ⟨hw, he⟩ := create_wellFormed 3 (fun _ => (0 : Nat))
  have href := exec_refines acrossWrap ⟨create 3 (fun _ => 0), [], []⟩ hw (by simp [he])
  have hq : queueExec 3 ([], [], []) acrossWrap =
      ([], [1, 2, 3, 4, 5, 10, 11, 12], [1, 2, 3, 4, 5, 10, 11, 12]) := by
    simp [queueExec, queueStep, acrossWrap]
  have hsize : (create 3 (fun _ => (0 : Nat))).size = 3 := rfl
  simp only [he, hsize] at href
  rw [hq] at href
  have h1 := congrArg Prod.fst href
  have h2 := congrArg (fun x => x.2.1) href
  have h3 := congrArg (fun x => x.2.2) href
  simp only at h1 h2 h3
  obtain ⟨hc1, hc2⟩ := exec_create_cursors 3 (fun _ => (0 : Nat)) acrossWrap
  refine ⟨h2, h3, h1, ?_, ?_⟩
  · rw [hc1, h2]; decide
  · rw [hc2, h3]; decide

/-- C15: for every capacity `size` and every sequence of push and pop calls on a buffer of
that capacity, started empty, at most `size` elements are resident and the elements handed
out by the successful pops are the elements of the successful pushes in push order: the
pushed elements are the popped ones followed by the resident ones.  For a capacity up to
128 both cursors stay values of a `uint8_t`.  Two runs carry the cursors across their wrap:
the unit test `circular_buffer::wrap_around` with its 256 loops on capacity 4, in which the
cursors pass 255 four times and end at 2, and a run on capacity 3, whose cursors wrap after
two laps of the ring. -/
theorem fifo_across_wraparound {α : Type} (size : Nat) (mem : Nat → α) (ops : List (Op α)) :
    ((exec ⟨create size mem, [], []⟩ ops).buffer.contents.length ≤ size ∧
      (exec ⟨create size mem, [], []⟩ ops).pushed =
        (exec ⟨create size mem, [], []⟩ ops).popped ++
          (exec ⟨create size mem, [], []⟩ ops).buffer.contents ∧
      (exec ⟨create size mem, [], []⟩ ops).popped <+:
        (exec ⟨create size mem, [], []⟩ ops).pushed ∧
      (size ≤ 128 → (exec ⟨create size mem, [], []⟩ ops).buffer.head < 256 ∧
        (exec ⟨create size mem, [], []⟩ ops).buffer.tail < 256)) ∧
    ((exec ⟨create 4 (fun _ => 0), [], []⟩ (wrapAround 256)).pushed =
        [5, 5] ++ (List.replicate 256 [0, 1, 2, 3]).flatten ∧
      (exec ⟨create 4 (fun _ => 0), [], []⟩ (wrapAround 256)).popped =
        [5, 5] ++ (List.replicate 256 [0, 1, 2, 3]).flatten ∧
      (exec ⟨create 4 (fun _ => 0), [], []⟩ (wrapAround 256)).buffer.contents = [] ∧
      (exec ⟨create 4 (fun _ => 0), [], []⟩ (wrapAround 256)).buffer.head = 2 ∧
      (exec ⟨create 4 (fun _ => 0), [], []⟩ (wrapAround 256)).buffer.tail = 2) ∧
    ((exec ⟨create 3 (fun _ => 0), [], []⟩ acrossWrap).pushed =
        [1, 2, 3, 4, 5, 10, 11, 12] ∧
      (exec ⟨create 3 (fun _ => 0), [], []⟩ acrossWrap).popped =
        [1, 2, 3, 4, 5, 10, 11, 12] ∧
      (exec ⟨create 3 (fun _ => 0), [], []⟩ acrossWrap).buffer.contents = [] ∧
      (exec ⟨create 3 (fun _ => 0), [], []⟩ acrossWrap).buffer.head = 2 ∧
      (exec ⟨create 3 (fun _ => 0), [], []⟩ acrossWrap).buffer.tail = 2) := by
  obtain ⟨hw, hs, hq⟩ := exec_create size mem ops
  obtain ⟨r1, r2, r3, r4, r5⟩ := wrapAround_run 256
  refine ⟨⟨?_, hq, ⟨_, hq.symm⟩, ?_⟩, ⟨r2, r3, r1, r4, r5⟩, acrossWrap_run⟩
  · rw [length_contents]
    exact Nat.le_trans hw.1 (Nat.le_of_eq hs)
  · intro h128
    obtain ⟨-, hz, hpos⟩ := hw
    rw [hs] at hz hpos
    rcases Nat.eq_zero_or_pos size with h0 | h0
    · obtain ⟨h1, h2⟩ := hz h0
      omega
    · obtain ⟨hh, ht⟩ := hpos h0
      have := wrap_le size h128
      omega

/-- C16: a buffer of any capacity `size` never silently drops or invents elements.  In every
state `b` that a sequence of calls reaches from the empty buffer: push succeeds iff `b` is
not full and pop succeeds iff it is not empty; `full()` holds exactly when `size` elements
are resident and `empty()` exactly when none is; a push on a full buffer returns false and a
pop on an empty buffer returns false, each leaving the contents unchanged; a successful push
appends its element and a successful pop hands out and removes the oldest one.  The two
scenarios of the unit tests `fill` (capacity 4) and `minimal_size` (capacity 1) follow. -/
theorem push_pop_never_drop {α : Type} (size : Nat) (mem : Nat → α) (ops : List (Op α))
    (x : α) :
    (((exec ⟨create size mem, [], []⟩ ops).buffer.push x).2 =
        !(exec ⟨create size mem, [], []⟩ ops).buffer.full ∧
      ((exec ⟨create size mem, [], []⟩ ops).buffer.pop).2.isSome =
        !(exec ⟨create size mem, [], []⟩ ops).buffer.empty ∧
      ((exec ⟨create size mem, [], []⟩ ops).buffer.full = true ↔
        (exec ⟨create size mem, [], []⟩ ops).buffer.contents.length = size) ∧
      ((exec ⟨create size mem, [], []⟩ ops).buffer.empty = true ↔
        (exec ⟨create size mem, [], []⟩ ops).buffer.contents = []) ∧
      ((exec ⟨create size mem, [], []⟩ ops).buffer.full = true →
        ((exec ⟨create size mem, [], []⟩ ops).buffer.push x).2 = false ∧
        ((exec ⟨create size mem, [], []⟩ ops).buffer.push x).1.contents =
          (exec ⟨create size mem, [], []⟩ ops).buffer.contents) ∧
      ((exec ⟨create size mem, [], []⟩ ops).buffer.empty = true →
        ((exec ⟨create size mem, [], []⟩ ops).buffer.pop).2 = none ∧
        ((exec ⟨create size mem, [], []⟩ ops).buffer.pop).1.contents =
          (exec ⟨create size mem, [], []⟩ ops).buffer.contents) ∧
      ((exec ⟨create size mem, [], []⟩ ops).buffer.full = false →
        ((exec ⟨create size mem, [], []⟩ ops).buffer.push x).2 = true ∧
        ((exec ⟨create size mem, [], []⟩ ops).buffer.push x).1.contents =
          (exec ⟨create size mem, [], []⟩ ops).buffer.contents ++ [x]) ∧
      ((exec ⟨create size mem, [], []⟩ ops).buffer.empty = false →
        ∃ rest, (exec ⟨create size mem, [], []⟩ ops).buffer.contents =
            (exec ⟨create size mem, [], []⟩ ops).buffer.front :: rest ∧
          ((exec ⟨create size mem, [], []⟩ ops).buffer.pop).2 =
            some (exec ⟨create size mem, [], []⟩ ops).buffer.front ∧
          ((exec ⟨create size mem, [], []⟩ ops).buffer.pop).1.contents = rest)) ∧
    ((exec ⟨create 4 (fun _ => 9), [], []⟩
        [Op.push 0, Op.push 1, Op.push 2, Op.push 3]).pushed = [0, 1, 2, 3] ∧
      (exec ⟨create 4 (fun _ => 9), [], []⟩
        [Op.push 0, Op.push 1, Op.push 2, Op.push 3]).buffer.full = true ∧
      (exec ⟨create 4 (fun _ => 9), [], []⟩
        [Op.push 0, Op.push 1, Op.push 2, Op.push 3, Op.push 4]).pushed = [0, 1, 2, 3] ∧
      (exec ⟨create 4 (fun _ => 9), [], []⟩
        [Op.push 0, Op.push 1, Op.push 2, Op.push 3, Op.push 4,
          Op.pop, Op.pop, Op.pop, Op.pop]).popped = [0, 1, 2, 3] ∧
      (exec ⟨create 4 (fun _ => 9), [], []⟩
        [Op.push 0, Op.push 1, Op.push 2, Op.push 3, Op.push 4,
          Op.pop, Op.pop, Op.pop, Op.pop]).buffer.empty = true) ∧
    ((exec ⟨create 1 (fun _ => 9), [], []⟩ [Op.push 1]).buffer.full = true ∧
      (exec ⟨create 1 (fun _ => 9), [], []⟩ [Op.push 1, Op.push 2]).pushed = [1] ∧
      (exec ⟨create 1 (fun _ => 9), [], []⟩ [Op.push 1, Op.push 2, Op.pop]).popped = [1] ∧
      (exec ⟨create 1 (fun _ => 9), [], []⟩
        [Op.push 1, Op.push 2, Op.pop]).buffer.empty = true ∧
      (exec ⟨create 1 (fun _ => 9), [], []⟩
        [Op.push 1, Op.push 2, Op.pop, Op.pop]).popped = [1]) := by
  refine ⟨?_, by decide, by decide⟩
  obtain ⟨hw, hs, -⟩ := exec_create size mem ops
  generalize (exec ⟨create size mem, [], []⟩ ops).buffer = b at hw hs
  have hfull := full_iff b
  have hempty := empty_iff b hw
  have hlen := length_contents b
  refine ⟨?_, ?_, ?_, ?_, ?_, ?_, ?_, ?_⟩
  · cases hf : b.full
    · exact (push_of_not_full b x hw hf).1
    · rw [push_of_full b x hf]; rfl
  · cases he : b.empty
    · obtain ⟨rest, -, h2, -⟩ := pop_of_not_empty b hw he
      rw [h2]; rfl
    · rw [pop_of_empty b he]; rfl
  · rw [hfull, hlen, hs]
  · rw [hempty, ← hlen]
    exact List.length_eq_zero
  · intro hf
    rw [push_of_full b x hf]
    exact ⟨rfl, rfl⟩
  · intro he
    rw [pop_of_empty b he]
    exact ⟨rfl, rfl⟩
  · intro hf
    exact ⟨(push_of_not_full b x hw hf).1, (push_of_not_full b x hw hf).2.2⟩
  · intro he
    obtain ⟨rest, h1, h2, -, h4⟩ := pop_of_not_empty b hw he
    exact ⟨rest, h1, h2, h4⟩

end CircularBuffer

namespace hal
namespace tmc2130

/-! ## Stallguard counter as a leaky bucket -/

/-- The counter after one `Isr` call, for a counter at or below a ceiling that fits it. -/
theorem Isr_counter_eq (params : MotorParams) (diag : Bool) (s : TMC2130)
    (hfit : fullStepTicks params ≤ 255) (hle : s.sg_counter ≤ fullStepTicks params) :
    (Isr params diag s).sg_counter =
      if s.sg_counter = 0 then 0
      else if diag = true then s.sg_counter - 1
      else if s.sg_counter < fullStepTicks params then s.sg_counter + 1
      else s.sg_counter := by
  unfold Isr
  by_cases h0 : s.sg_counter = 0
  · simp [h0]
  · cases diag
    · by_cases hlt : s.sg_counter < fullStepTicks params
      · simp only [ne_eq, h0, not_false_eq_true, if_true, Bool.false_eq_true, if_false, hlt, u8]
        omega
      · simp [h0, hlt]
    · simp only [ne_eq, h0, not_false_eq_true, if_true, if_false, u8]
      omega

theorem IsrSamples_zero (params : MotorParams) (diags : List Bool) (s : TMC2130)
    (h0 : s.sg_counter = 0) : (IsrSamples params diags s).sg_counter = 0 := by
  induction diags generalizing s with
  | nil => exact h0
  | cons d ds ih =>
    simp only [IsrSamples]
    apply ih
    unfold Isr
    simp [h0]

/-- The counter is zero after a sequence of samples exactly when it was zero before, or an
initial run of the samples has as many more stall samples than the start value, or some
contiguous run has as many more stall samples than the ceiling. -/
theorem IsrSamples_zero_iff (params : MotorParams) (diags : List Bool) (s : TMC2130)
    (h1 : 1 ≤ fullStepTicks params) (hfit : fullStepTicks params ≤ 255)
    (hle : s.sg_counter ≤ fullStepTicks params) :
    (IsrSamples params diags s).sg_counter = 0 ↔
      (s.sg_counter = 0 ∨
        (∃ p, p <+: diags ∧ p.count false + s.sg_counter ≤ p.count true) ∨
        (∃ r, r <:+: diags ∧ r.count false + fullStepTicks params ≤ r.count true)) := by
  induction diags generalizing s with
  | nil =>
    simp only [IsrSamples, List.prefix_nil, List.infix_nil, exists_eq_left, List.count_nil]
    omega
  | cons x l ih =>
    by_cases hz : s.sg_counter = 0
    · simp only [hz, true_or, iff_true]
      exact IsrSamples_zero params _ s hz
    · have hstep := Isr_counter_eq params x s hfit hle
      have hb := (Isr_counter_bounds params x s hfit hle).2
      have hih := ih (Isr params x s) hb
      simp only [IsrSamples]
      rw [hih]
      simp only [hz, false_or]
      rw [if_neg hz] at hstep
      constructor
      · rintro (h | ⟨p, hp, hc⟩ | ⟨r, hr, hc⟩)
        · cases x
          · simp only [Bool.false_eq_true, if_false] at hstep
            split at hstep <;> omega
          · simp only [if_true] at hstep
            refine Or.inl ⟨[true], ?_, ?_⟩
            · simp
            · simp; omega
        · cases x
          · simp only [Bool.false_eq_true, if_false] at hstep
            by_cases hlt : s.sg_counter < fullStepTicks params
            · rw [if_pos hlt] at hstep
              refine Or.inl ⟨false :: p, (List.prefix_cons_inj false).mpr hp, ?_⟩
              simp; omega
            · rw [if_neg hlt] at hstep
              refine Or.inr ⟨p, List.infix_cons hp.isInfix, ?_⟩
              omega
          · simp only [if_true] at hstep
            refine Or.inl ⟨true :: p, (List.prefix_cons_inj true).mpr hp, ?_⟩
            simp; omega
        · exact Or.inr ⟨r, List.infix_cons hr, hc⟩
      · have key : ∀ q : List Bool, q <+: x :: l →
            q.count false + s.sg_counter ≤ q.count true →
            ∃ p, p <+: l ∧ p.count false + (Isr params x s).sg_counter ≤ p.count true := by
          intro q hq hc
          rcases List.prefix_cons_iff.mp hq with rfl | ⟨t, rfl, ht⟩
          · simp at hc; omega
          · refine ⟨t, ht, ?_⟩
            cases x
            · simp only [Bool.false_eq_true, if_false] at hstep
              simp at hc
              split at hstep <;> omega
            · simp only [if_true] at hstep
              simp at hc
              omega
        rintro (⟨p, hp, hc⟩ | ⟨r, hr, hc⟩)
        · exact Or.inr (Or.inl (key p hp hc))
        · rcases List.infix_cons_iff.mp hr with hpre | hin
          · exact Or.inr (Or.inl (key r hpre (by omega)))
          · exact Or.inr (Or.inr ⟨r, hin, hc⟩)

/-- C18: the stallguard counter is a leaky-bucket filter.  For every microstep code 2..8,
whose calibrated value `N = 4·2^(8−uSteps) − 1` fits the counter, and every sequence of `Isr`
samples taken after `ClearStallguard`, the counter is zero at the end of the sequence if and
only if some contiguous run of samples holds at least `N` more stall samples than samples
without stall; in particular the counter stays non-zero when no contiguous run holds more
stall samples than samples without stall. -/
theorem stall_iff_run_excess (params : MotorParams) (s : TMC2130) (diags : List Bool)
    (h2 : 2 ≤ params.uSteps) (h8 : params.uSteps ≤ 8) :
    ((IsrSamples params diags (ClearStallguard params s)).sg_counter = 0 ↔
      ∃ run, run <:+: diags ∧
        run.count false + (4 * 2 ^ (8 - params.uSteps) - 1) ≤ run.count true) ∧
    ((∀ run, run <:+: diags → run.count true ≤ run.count false) →
      (IsrSamples params diags (ClearStallguard params s)).sg_counter ≠ 0) := by
  obtain ⟨h1, h255⟩ := fullStepTicks_fits params h2 h8
  have hc : (ClearStallguard params s).sg_counter = fullStepTicks params := by
    rw [ClearStallguard_counter]; omega
  have hiff := IsrSamples_zero_iff params diags (ClearStallguard params s) h1 h255
    (Nat.le_of_eq hc)
  rw [hc] at hiff
  rw [← fullStepTicks_eq]
  have hmain : (IsrSamples params diags (ClearStallguard params s)).sg_counter = 0 ↔
      ∃ run, run <:+: diags ∧ run.count false + fullStepTicks params ≤ run.count true := by
    rw [hiff]
    constructor
    · rintro (h | ⟨p, hp, hcount⟩ | h)
      · omega
      · exact ⟨p, hp.isInfix, hcount⟩
      · exact h
    · intro h
      exact Or.inr (Or.inr h)
  refine ⟨hmain, ?_⟩
  intro hall hzero
  obtain ⟨run, hrun, hcount⟩ := hmain.mp hzero
  have := hall run hrun
  omega

/-- Instance of C18 at full stepping (`uSteps = 8`, `N = 3`): the run of three stall samples
at the end makes the counter zero. -/
theorem stall_iff_run_excess_witness :
    (2 ≤ (testParams 8).uSteps ∧ (testParams 8).uSteps ≤ 8) ∧
    ((IsrSamples (testParams 8) [true, false, true, true, true]
        (ClearStallguard (testParams 8) (testDriver 0))).sg_counter = 0 ∧
      (IsrSamples (testParams 8) [true, false, true, false, true, true]
        (ClearStallguard (testParams 8) (testDriver 0))).sg_counter = 1) ∧
    ((IsrSamples (testParams 8) [true, false, true, true, true]
        (ClearStallguard (testParams 8) (testDriver 0))).sg_counter = 0 ↔
      ∃ run, run <:+: [true, false, true, true, true] ∧
        run.count false + (4 * 2 ^ (8 - (testParams 8).uSteps) - 1) ≤ run.count true) :=
  ⟨⟨by decide, by decide⟩, ⟨by decide, by decide⟩,
    (stall_iff_run_excess (testParams 8) (testDriver 0) [true, false, true, true, true]
      (by decide) (by decide)).1⟩

/-- The single step of C19 for the microstep codes 2..8: a stall sample lowers a non-zero
counter by one, a sample without stall raises it by one up to the ceiling
`4·2^(8−uSteps) − 1`, so that it does not decrease, does not become zero and does not
exceed the ceiling. -/
theorem Isr_counter_of_fits (params : MotorParams) (s : TMC2130)
    (h2 : 2 ≤ params.uSteps) (h8 : params.uSteps ≤ 8) (hz : s.sg_counter ≠ 0)
    (hle : s.sg_counter ≤ (ClearStallguard params s).sg_counter) :
    (Isr params true s).sg_counter = s.sg_counter - 1 ∧
    (Isr params false s).sg_counter = min (s.sg_counter + 1) (4 * 2 ^ (8 - params.uSteps) - 1) ∧
    s.sg_counter ≤ (Isr params false s).sg_counter ∧
    (Isr params false s).sg_counter ≠ 0 ∧
    (Isr params false s).sg_counter ≤ 4 * 2 ^ (8 - params.uSteps) - 1 := by
  obtain ⟨h1, h255⟩ := fullStepTicks_fits params h2 h8
  rw [ClearStallguard_counter] at hle
  have hle2 : s.sg_counter ≤ fullStepTicks params := by omega
  have ht := Isr_counter_eq params true s h255 hle2
  have hf := Isr_counter_eq params false s h255 hle2
  rw [if_neg hz] at ht hf
  simp only [if_true] at ht
  simp only [Bool.false_eq_true, if_false] at hf
  rw [← fullStepTicks_eq]
  split at hf <;> omega

/-- C19 at 256 and at 128 microsteps (`uSteps = 0` and `uSteps = 1`): the counter value 255
is the value set by `ClearStallguard` and lies below the ceilings 1023 and 511; one `Isr`
call without stall turns it into 0 instead of 256. -/
theorem nonstall_sample_wraps_counter_to_zero :
    (4 * 2 ^ (8 - (testParams 0).uSteps) - 1 = 1023 ∧
      (ClearStallguard (testParams 0) (testDriver 7)).sg_counter = 255 ∧
      (Isr (testParams 0) false (testDriver 255)).sg_counter = 0 ∧
      (Isr (testParams 0) true (testDriver 255)).sg_counter = 254 ∧
      (Isr (testParams 0) false (testDriver 254)).sg_counter = 255) ∧
    (4 * 2 ^ (8 - (testParams 1).uSteps) - 1 = 511 ∧
      (ClearStallguard (testParams 1) (testDriver 7)).sg_counter = 255 ∧
      (Isr (testParams 1) false (testDriver 255)).sg_counter = 0) := by
  decide

/-- The value stored by `ClearStallguard` is not zero for the microstep codes 0..8. -/
theorem ClearStallguard_counter_ne_zero (params : MotorParams) (s : TMC2130)
    (h8 : params.uSteps ≤ 8) : (ClearStallguard params s).sg_counter ≠ 0 := by
  obtain ⟨idx, cs, step, sg, u⟩ := params
  simp only at h8
  simp only [ClearStallguard, fullStepTicks, u8]
  interval_cases u <;> decide

theorem Init_sg_counter {D : Type} (hal : Hal D) (regs : Registers) (coolConf : Nat)
    (params : MotorParams) (w : World D) (s : TMC2130) :
    (Init hal regs coolConf params w s).1.2.sg_counter = s.sg_counter := by
  rw [Init_state]
  split <;> rfl

/-- C20: a detected stall is latched.  Once the stallguard counter is zero, every `Isr`
call leaves it zero whatever the sampled stall signal, and so do `SetMode`, `SetCurrents`,
`CheckForErrors`, `Init` and a `SetEnabled` call that does not change the enabled flag; a
call after which the counter is not zero is `ClearStallguard` or a `SetEnabled` that changes
the enabled flag, and for the microstep codes 0..8 these two do make it non-zero. -/
theorem stall_latched {D : Type} (hal : Hal D) (regs : Registers) (coolConf : Nat)
    (params : MotorParams) (w : World D) (s : TMC2130) (h0 : s.sg_counter = 0) :
    ((∀ diag, (Isr params diag s).sg_counter = 0) ∧
      (∀ diags, (IsrSamples params diags s).sg_counter = 0) ∧
      (∀ mode, (SetMode hal regs params w s mode).2.sg_counter = 0) ∧
      (∀ currents, (SetCurrents hal regs params w s currents).2.sg_counter = 0) ∧
      (CheckForErrors hal regs params w s).1.2.sg_counter = 0 ∧
      (SetEnabled hal params w s s.enabled).2.sg_counter = 0) ∧
    (∀ call, (perform hal regs coolConf params (w, s) call).1.2.sg_counter ≠ 0 →
      call = Call.ClearStallguard ∨ call = Call.SetEnabled (!s.enabled)) ∧
    (params.uSteps ≤ 8 →
      (ClearStallguard params s).sg_counter ≠ 0 ∧
      (SetEnabled hal params w s (!s.enabled)).2.sg_counter ≠ 0) := by
  have hisr : ∀ diag, (Isr params diag s).sg_counter = 0 := by
    intro diag
    unfold Isr
    simp [h0]
  have hen : (SetEnabled hal params w s s.enabled).2.sg_counter = 0 := by
    simp [SetEnabled, h0]
  have hcheck : (CheckForErrors hal regs params w s).1.2.sg_counter = 0 := by
    rw [CheckForErrors_state]; exact h0
  refine ⟨⟨hisr, fun diags => IsrSamples_zero params diags s h0, fun _ => h0, fun _ => h0,
    hcheck, hen⟩, ?_, ?_⟩
  · intro call hne
    cases call with
    | CheckForErrors => exact absurd hcheck hne
    | SetMode mode => exact absurd h0 hne
    | SetCurrents currents => exact absurd h0 hne
    | SetEnabled enabled =>
      right
      by_cases he : enabled = s.enabled
      · rw [he] at hne
        exact absurd hen hne
      · congr 1
        cases enabled <;> cases hs : s.enabled <;> simp_all
    | ClearStallguard => exact Or.inl rfl
    | Isr diag => exact absurd (hisr diag) hne
    | Init => exact absurd ((Init_sg_counter hal regs coolConf params w s).trans h0) hne
  · intro h8
    have hclear := ClearStallguard_counter_ne_zero params s h8
    refine ⟨hclear, ?_⟩
    have hflip : s.enabled ≠ (!s.enabled) := by cases s.enabled <;> decide
    simpa [SetEnabled, hflip] using hclear

/-- Instance of C20: a driver whose counter has reached zero, on the simulated device. -/
theorem stall_latched_witness :
    (testDriver 0).sg_counter = 0 ∧
    ((∀ diag, (Isr (testParams 5) diag (testDriver 0)).sg_counter = 0) ∧
      (∀ diags, (IsrSamples (testParams 5) diags (testDriver 0)).sg_counter = 0) ∧
      (∀ mode, (SetMode replay datasheetRegisters (testParams 5) ⟨[], []⟩ (testDriver 0)
        mode).2.sg_counter = 0) ∧
      (∀ currents, (SetCurrents replay datasheetRegisters (testParams 5) ⟨[], []⟩
        (testDriver 0) currents).2.sg_counter = 0) ∧
      (CheckForErrors replay datasheetRegisters (testParams 5) ⟨[], []⟩
        (testDriver 0)).1.2.sg_counter = 0 ∧
      (SetEnabled replay (testParams 5) ⟨[], []⟩ (testDriver 0)
        (testDriver 0).enabled).2.sg_counter = 0) ∧
    ((ClearStallguard (testParams 5) (testDriver 0)).sg_counter = 31 ∧
      (SetEnabled replay (testParams 5) ⟨[], []⟩ (testDriver 0) true).2.sg_counter = 31) :=
  ⟨by decide,
    (stall_latched replay datasheetRegisters 0 (testParams 5) ⟨[], []⟩ (testDriver 0)
      (by decide)).1,
    by decide⟩

end tmc2130
end hal

/-! # CutFilament: the phases of a cut -/

namespace logic

/-- The retry policy of the feed: a feed that completes without the sensor is issued again
twice; the third completion escalates to an ErrorCode, the phase is kept and the automaton
has halted. -/
theorem feed_escalates_after_retries :
    (advance 0 (started 2) [⟨true, false, none⟩, ⟨true, false, none⟩,
        ⟨true, false, none⟩]).retries = 2 ∧
    (advance 0 (started 2) [⟨true, false, none⟩, ⟨true, false, none⟩,
        ⟨true, false, none⟩]).error = ErrorCode.OK ∧
    (advance 0 (started 2) [⟨true, false, none⟩, ⟨true, false, none⟩,
        ⟨true, false, none⟩, ⟨true, false, none⟩]).error = ErrorCode.feedFailed ∧
    (advance 0 (started 2) [⟨true, false, none⟩, ⟨true, false, none⟩,
        ⟨true, false, none⟩, ⟨true, false, none⟩, ⟨false, true, none⟩]).state =
      ProgressCode.FeedingToFinda ∧
    (advance 0 (started 2) [⟨true, false, none⟩, ⟨false, false, some 3⟩,
        ⟨false, true, none⟩]).error = ErrorCode.fault 3 := by
  decide

end logic

namespace hal
namespace tmc2130

/-! ## Slot positions and button windows within their ranges -/

/-- C23: every named slot position lies inside its axis travel.  For every index `i` in
`0..toolCount`, `0 ≤ selectorSlotPositions[i] ≤ selectorLimits.lenght` (75 mm) and
`0 ≤ idlerSlotPositions[i] ≤ idlerLimits.lenght` (270°); and for every cut target slot
`s < toolCount` the index `s + 1`, used to move the selector one slot past the target, is a
valid index of `selectorSlotPositions` (at most `toolCount`). -/
theorem slot_positions_within_travel :
    (∀ i : Fin (toolCount + 1),
      (∃ pos, selectorSlotPositions[i.val]? = some pos ∧ 0 ≤ pos ∧ pos ≤ selectorLimitsLenght) ∧
      (∃ pos, idlerSlotPositions[i.val]? = some pos ∧ 0 ≤ pos ∧ pos ≤ idlerLimitsLenght)) ∧
    (selectorLimitsLenght = 75 ∧ idlerLimitsLenght = 270) ∧
    (∀ s : Fin toolCount,
      s.val + 1 ≤ toolCount ∧ s.val + 1 < selectorSlotPositions.length ∧
      ∃ pos, selectorSlotPositions[s.val + 1]? = some pos ∧ 0 ≤ pos ∧
        pos ≤ selectorLimitsLenght) := by
  refine ⟨?_, ⟨rfl, rfl⟩, ?_⟩
  · intro i
    fin_cases i <;>
      norm_num [selectorSlotPositions, idlerSlotPositions, SelectorOffsetFromMax,
        SelectorSlotDistance, IdlerOffsetFromHome, IdlerSlotDistance, selectorLimitsLenght,
        idlerLimitsLenght]
  · intro s
    fin_cases s <;>
      norm_num [selectorSlotPositions, SelectorOffsetFromMax, SelectorSlotDistance,
        selectorLimitsLenght, toolCount]

/-- C24: the configured button ADC windows are well formed and mutually exclusive.  Each of
the `buttonCount` windows has low ≤ high, and for every ADC sample value at most one
window `[low, high]` contains it; a value outside all windows (51..79, 101..159 or above
180) lies in no window. -/
theorem button_windows_exclusive :
    buttonADCLimits.length = buttonCount ∧
    (∀ win ∈ buttonADCLimits, win.1 ≤ win.2) ∧
    (∀ (adc : Nat) (i j : Fin buttonCount),
      (buttonADCLimits.getD i.val (0, 0)).1 ≤ adc ∧ adc ≤ (buttonADCLimits.getD i.val (0, 0)).2 →
      (buttonADCLimits.getD j.val (0, 0)).1 ≤ adc ∧ adc ≤ (buttonADCLimits.getD j.val (0, 0)).2 →
      i = j) ∧
    (∀ adc : Nat, ((51 ≤ adc ∧ adc ≤ 79) ∨ (101 ≤ adc ∧ adc ≤ 159) ∨ 180 < adc) →
      ∀ win ∈ buttonADCLimits, ¬ (win.1 ≤ adc ∧ adc ≤ win.2)) ∧
    (∀ adc : Nat, (∀ win ∈ buttonADCLimits, ¬ (win.1 ≤ adc ∧ adc ≤ win.2)) ↔
      ((51 ≤ adc ∧ adc ≤ 79) ∨ (101 ≤ adc ∧ adc ≤ 159) ∨ 180 < adc)) := by
  refine ⟨rfl, by decide, ?_, ?_, ?_⟩
  · intro adc i j hi hj
    fin_cases i <;> fin_cases j <;> simp [buttonADCLimits] at hi hj ⊢ <;> omega
  · intro adc h win hwin
    simp only [buttonADCLimits, List.mem_cons, List.mem_singleton, List.not_mem_nil,
      or_false] at hwin
    rcases hwin with rfl | rfl | rfl <;> simp only <;> omega
  · intro adc
    simp only [buttonADCLimits, List.mem_cons, List.mem_singleton, List.not_mem_nil,
      or_false, forall_eq_or_imp, forall_eq]
    omega

/-! ## The configuration written by a successful `Init` -/

/-- The calls of one `WriteRegister`. -/
theorem WriteRegister_calls {D : Type} (hal : Hal D) (params : MotorParams) (w : World D)
    (reg data : Nat) :
    (WriteRegister hal params w reg data).trace =
      w.trace ++ (HalCall.writePin params.csPin false ::
        (writeFrame reg data).map HalCall.spiTxRx ++ [HalCall.writePin params.csPin true]) := by
  simp only [WriteRegister, writeFrame]
  rw [_spi_tx_rx_trace]

theorem transactions_writeFrame (cs reg data : Nat) (cur : Option (List Nat))
    (rest : List HalCall) :
    transactionsFrom cs cur (HalCall.writePin cs false ::
      (writeFrame reg data).map HalCall.spiTxRx ++ [HalCall.writePin cs true] ++ rest) =
      writeFrame reg data :: transactionsFrom cs none rest := by
  simp only [writeFrame, List.map_cons, List.map_nil, List.cons_append, List.nil_append,
    transactions_five]

/-- The transactions of an `Init` whose identity check succeeds: the two transactions of
the IOIN read and then the eight register writes, in program order. -/
theorem Init_success_transactions {D : Type} (hal : Hal D) (regs : Registers)
    (coolConf : Nat) (params : MotorParams) (w : World D) (s : TMC2130)
    (hok : (Init hal regs coolConf params w s).2 = false) :
    ∃ b c d e calls, (Init hal regs coolConf params w s).1.1.trace = w.trace ++ calls ∧
      transactions params.csPin calls =
        [[u8 regs.IOIN, 0, 0, 0, 0], [0, b, c, d, e],
          writeFrame regs.CHOPCONF (chopconf params s.currents),
          writeFrame regs.IHOLD_IRUN (u32 ((s.currents.iHold &&& 0x1F) <<< 0)
            ||| u32 ((s.currents.iRun &&& 0x1F) <<< 8) ||| u32 ((15 &&& 0x0F) <<< 16)),
          writeFrame regs.TPOWERDOWN 0,
          writeFrame regs.COOLCONF coolConf,
          writeFrame regs.TCOOLTHRS tmc2130_coolStepThreshold,
          writeFrame regs.GCONF gconf,
          writeFrame regs.PWMCONF pwmconf,
          writeFrame regs.TPWMTHRS (if s.mode = MotorMode.Stealth then 70 else 0xFFF00)] := by
  have hcond : identityMismatch (ReadRegister hal params (gpioInit hal (gpioInit hal
      (gpioInit hal w params.csPin GpioSetup.outputHigh) params.sgPin GpioSetup.inputPullUp)
      params.stepPin GpioSetup.outputLow) regs.IOIN).2 = false := by
    simp only [Init] at hok
    split at hok
    · simp at hok
    · next hne => exact Bool.eq_false_iff.mpr hne
  obtain ⟨b, c, d, e, htr⟩ := ReadRegister_trace hal params (gpioInit hal (gpioInit hal
      (gpioInit hal w params.csPin GpioSetup.outputHigh) params.sgPin GpioSetup.inputPullUp)
      params.stepPin GpioSetup.outputLow) regs.IOIN
  refine ⟨b, c, d, e,
    [HalCall.gpioInit params.csPin GpioSetup.outputHigh,
      HalCall.gpioInit params.sgPin GpioSetup.inputPullUp,
      HalCall.gpioInit params.stepPin GpioSetup.outputLow,
      HalCall.writePin params.csPin false, HalCall.spiTxRx (u8 regs.IOIN), HalCall.spiTxRx 0,
      HalCall.spiTxRx 0, HalCall.spiTxRx 0, HalCall.spiTxRx 0,
      HalCall.writePin params.csPin true,
      HalCall.writePin params.csPin false, HalCall.spiTxRx 0, HalCall.spiTxRx b,
      HalCall.spiTxRx c, HalCall.spiTxRx d, HalCall.spiTxRx e,
      HalCall.writePin params.csPin true] ++
    ((HalCall.writePin params.csPin false ::
        (writeFrame regs.CHOPCONF (chopconf params s.currents)).map HalCall.spiTxRx ++
        [HalCall.writePin params.csPin true]) ++
    ((HalCall.writePin params.csPin false ::
        (writeFrame regs.IHOLD_IRUN (u32 ((s.currents.iHold &&& 0x1F) <<< 0)
          ||| u32 ((s.currents.iRun &&& 0x1F) <<< 8)
          ||| u32 ((15 &&& 0x0F) <<< 16))).map HalCall.spiTxRx ++
        [HalCall.writePin params.csPin true]) ++
    ((HalCall.writePin params.csPin false ::
        (writeFrame regs.TPOWERDOWN 0).map HalCall.spiTxRx ++
        [HalCall.writePin params.csPin true]) ++
    ((HalCall.writePin params.csPin false ::
        (writeFrame regs.COOLCONF coolConf).map HalCall.spiTxRx ++
        [HalCall.writePin params.csPin true]) ++
    ((HalCall.writePin params.csPin false ::
        (writeFrame regs.TCOOLTHRS tmc2130_coolStepThreshold).map HalCall.spiTxRx ++
        [HalCall.writePin params.csPin true]) ++
    ((HalCall.writePin params.csPin false ::
        (writeFrame regs.GCONF gconf).map HalCall.spiTxRx ++
        [HalCall.writePin params.csPin true]) ++
    ((HalCall.writePin params.csPin false ::
        (writeFrame regs.PWMCONF pwmconf).map HalCall.spiTxRx ++
        [HalCall.writePin params.csPin true]) ++
    ((HalCall.writePin params.csPin false ::
        (writeFrame regs.TPWMTHRS
          (if s.mode = MotorMode.Stealth then 70 else 0xFFF00)).map HalCall.spiTxRx ++
        [HalCall.writePin params.csPin true]) ++ [])))))))), ?_, ?_⟩
  · simp only [Init, hcond, Bool.false_eq_true, if_false, SetMode, SetCurrents,
      WriteRegister_calls, htr]
    simp [gpioInit]
  · simp only [transactions, List.cons_append, List.nil_append, transactions_gpioInit,
      transactions_five]
    simp only [← List.cons_append, transactions_writeFrame]
    simp [transactionsFrom]

/-- The word `chopconf` of `Init` as the sum of its fields. -/
theorem chopconf_eq (params : MotorParams) (currents : MotorCurrents) :
    chopconf params currents =
      3 + 5 * 2 ^ 4 + 1 * 2 ^ 7 + 2 * 2 ^ 15 + currents.vSense.toNat * 2 ^ 17 +
        params.uSteps % 16 * 2 ^ 24 + (decide (params.uSteps ≠ 0)).toNat * 2 ^ 28 + 2 ^ 29 := by
  have hconst : u32 ((3 &&& 0x0F) <<< 0) ||| u32 ((5 &&& 0x07) <<< 4)
      ||| u32 ((1 &&& 0x0F) <<< 7) ||| u32 ((2 &&& 0x03) <<< 15) = 65747 := by decide
  have hv : currents.vSense.toNat ≤ 1 := Bool.toNat_le _
  have hb : (decide (params.uSteps ≠ 0)).toNat ≤ 1 := Bool.toNat_le _
  have e1 : currents.vSense.toNat &&& 0x01 = currents.vSense.toNat % 2 :=
    Nat.and_pow_two_sub_one_eq_mod _ 1
  have e2 : params.uSteps &&& 0x0F = params.uSteps % 16 :=
    Nat.and_pow_two_sub_one_eq_mod _ 4
  have a1 : u32 ((currents.vSense.toNat % 2) <<< 17) = currents.vSense.toNat * 2 ^ 17 := by
    simp only [u32, Nat.shiftLeft_eq]; omega
  have a2 : u32 ((params.uSteps % 16) <<< 24) = params.uSteps % 16 * 2 ^ 24 := by
    simp only [u32, Nat.shiftLeft_eq]; omega
  have a3 : u32 ((decide (params.uSteps ≠ 0)).toNat <<< 28)
      = (decide (params.uSteps ≠ 0)).toNat * 2 ^ 28 := by
    simp only [u32, Nat.shiftLeft_eq]; omega
  have a4 : u32 (((1 : Nat) &&& 0x01) <<< 29) = 2 ^ 29 := by decide
  unfold chopconf
  rw [hconst, e1, e2, a1, a2, a3, a4]
  generalize currents.vSense.toNat = v at hv
  generalize (decide (params.uSteps ≠ 0)).toNat = b at hb
  have hu : params.uSteps % 16 < 16 := Nat.mod_lt _ (by decide)
  generalize params.uSteps % 16 = u at hu
  rw [Nat.or_comm 65747, or_eq_add_of_dvd 17 (v * 2 ^ 17) 65747 (Dvd.intro_left _ rfl)
    (by omega)]
  rw [Nat.or_comm (v * 2 ^ 17 + 65747),
    or_eq_add_of_dvd 24 (u * 2 ^ 24) (v * 2 ^ 17 + 65747) (Dvd.intro_left _ rfl) (by omega)]
  rw [Nat.or_comm (u * 2 ^ 24 + (v * 2 ^ 17 + 65747)),
    or_eq_add_of_dvd 28 (b * 2 ^ 28) (u * 2 ^ 24 + (v * 2 ^ 17 + 65747))
      (Dvd.intro_left _ rfl) (by omega)]
  rw [Nat.or_comm (b * 2 ^ 28 + (u * 2 ^ 24 + (v * 2 ^ 17 + 65747))),
    or_eq_add_of_dvd 29 (2 ^ 29) (b * 2 ^ 28 + (u * 2 ^ 24 + (v * 2 ^ 17 + 65747)))
      (Nat.dvd_refl _) (by omega)]
  omega

theorem writeFrame_eq (reg data : Nat) (hreg : reg < 0x80) :
    writeFrame reg data =
      [reg ||| 0x80, data / 2 ^ 24 % 256, data / 2 ^ 16 % 256, data / 2 ^ 8 % 256,
        data % 256] := by
  unfold writeFrame
  rw [write_address_byte reg hreg]
  simp only [u8, Nat.shiftRight_eq_div_pow]

/-- C22: the CHOPCONF word that a successful `Init` writes packs its fields into pairwise
disjoint bit ranges.  For every microstep code `uSteps` in 0..15 and every `vSense` flag,
bits 0..3 (toff) equal 3, bits 4..6 (hstrt) equal 5, bits 7..10 (hend) equal 1, bits 15..16
(tbl) equal 2, bit 17 equals `vSense`, bits 24..27 (mres) equal `uSteps`, bit 28
(interpolation) is set iff `uSteps ≠ 0`, bit 29 (double edge) is set, and every other bit is
zero; the word is the payload of the first register write of the call, to CHOPCONF. -/
theorem Init_writes_chopconf_fields {D : Type} (hal : Hal D) (regs : Registers)
    (coolConf : Nat) (params : MotorParams) (w : World D) (s : TMC2130)
    (hu : params.uSteps ≤ 15) (hreg : regs.CHOPCONF < 0x80)
    (hok : (Init hal regs coolConf params w s).2 = false) :
    ∃ word calls,
      (Init hal regs coolConf params w s).1.1.trace = w.trace ++ calls ∧
      (transactions params.csPin calls)[2]? =
        some [regs.CHOPCONF ||| 0x80, word / 2 ^ 24 % 256, word / 2 ^ 16 % 256,
          word / 2 ^ 8 % 256, word % 256] ∧
      word = chopconf params s.currents ∧
      word % 2 ^ 4 = 3 ∧ word / 2 ^ 4 % 2 ^ 3 = 5 ∧ word / 2 ^ 7 % 2 ^ 4 = 1 ∧
      word / 2 ^ 15 % 2 ^ 2 = 2 ∧ word / 2 ^ 17 % 2 = s.currents.vSense.toNat ∧
      word / 2 ^ 24 % 2 ^ 4 = params.uSteps ∧
      (word / 2 ^ 28 % 2 = 1 ↔ params.uSteps ≠ 0) ∧ word / 2 ^ 29 % 2 = 1 ∧
      word / 2 ^ 11 % 2 ^ 4 = 0 ∧ word / 2 ^ 18 % 2 ^ 6 = 0 ∧ word / 2 ^ 30 = 0 := by
  obtain ⟨b, c, d, e, calls, htrace, htx⟩ :=
    Init_success_transactions hal regs coolConf params w s hok
  have hword := chopconf_eq params s.currents
  have hmod : params.uSteps % 16 = params.uSteps := Nat.mod_eq_of_lt (by omega)
  rw [hmod] at hword
  have hv : s.currents.vSense.toNat ≤ 1 := Bool.toNat_le _
  have hbit : (decide (params.uSteps ≠ 0)).toNat = 1 ↔ params.uSteps ≠ 0 := by
    by_cases h : params.uSteps = 0 <;> simp [h]
  have hb : (decide (params.uSteps ≠ 0)).toNat ≤ 1 := Bool.toNat_le _
  refine ⟨chopconf params s.currents, calls, htrace, ?_, rfl, ?_⟩
  · rw [htx, writeFrame_eq _ _ hreg]
    rfl
  · rw [hword]
    generalize s.currents.vSense.toNat = v at hv
    generalize (decide (params.uSteps ≠ 0)).toNat = bit at hb hbit
    refine ⟨?_, ?_, ?_, ?_, ?_, ?_, ?_, ?_, ?_, ?_, ?_⟩
    · omega
    · omega
    · omega
    · omega
    · omega
    · omega
    · rw [← hbit]; omega
    · omega
    · omega
    · omega
    · omega

/-- Instance of C22: `Init` of a 16-microstep axis (`uSteps = 4`) on the simulated device,
whose IOIN reads 0x11000040. -/
theorem Init_writes_chopconf_fields_witness :
    ((testParams 4).uSteps ≤ 15 ∧ datasheetRegisters.CHOPCONF < 0x80 ∧
      (Init replay datasheetRegisters 0 (testParams 4) ⟨answer 0x11 0 0 0x40, []⟩
        (testDriver 0)).2 = false) ∧
    ((transactions (testParams 4).csPin
        (Init replay datasheetRegisters 0 (testParams 4) ⟨answer 0x11 0 0 0x40, []⟩
          (testDriver 0)).1.1.trace)[2]? = some [0xEC, 0x34, 0x03, 0x00, 0xD3] ∧
      chopconf (testParams 4) (testDriver 0).currents = 0x340300D3) ∧
    (∃ word calls,
      (Init replay datasheetRegisters 0 (testParams 4) ⟨answer 0x11 0 0 0x40, []⟩
        (testDriver 0)).1.1.trace = [] ++ calls ∧
      (transactions (testParams 4).csPin calls)[2]? =
        some [datasheetRegisters.CHOPCONF ||| 0x80, word / 2 ^ 24 % 256, word / 2 ^ 16 % 256,
          word / 2 ^ 8 % 256, word % 256] ∧
      word = chopconf (testParams 4) (testDriver 0).currents ∧
      word % 2 ^ 4 = 3 ∧ word / 2 ^ 4 % 2 ^ 3 = 5 ∧ word / 2 ^ 7 % 2 ^ 4 = 1 ∧
      word / 2 ^ 15 % 2 ^ 2 = 2 ∧ word / 2 ^ 17 % 2 = (testDriver 0).currents.vSense.toNat ∧
      word / 2 ^ 24 % 2 ^ 4 = (testParams 4).uSteps ∧
      (word / 2 ^ 28 % 2 = 1 ↔ (testParams 4).uSteps ≠ 0) ∧ word / 2 ^ 29 % 2 = 1 ∧
      word / 2 ^ 11 % 2 ^ 4 = 0 ∧ word / 2 ^ 18 % 2 ^ 6 = 0 ∧ word / 2 ^ 30 = 0) :=
  ⟨⟨by decide, by decide, by decide⟩, ⟨by decide, by decide⟩,
    Init_writes_chopconf_fields replay datasheetRegisters 0 (testParams 4)
      ⟨answer 0x11 0 0 0x40, []⟩ (testDriver 0) (by decide) (by decide) (by decide)⟩

/-- C21 as the code has it: the constants are combined without being shifted, so the word
`pwmconf` is `240 | 4 | 2 | 1 = 247`.  Bits 0..7 hold 247 and not the amplitude 240, bits
8..15 hold 0 and not the gradient 4, bits 16..17 hold 0 and not the frequency 2, and bit 18
is clear although autoscale is 1; a successful `Init` on the simulated device writes the
bytes 0, 0, 0, 0xF7 to PWMCONF. -/
theorem pwmconf_fields_overlap :
    (tmc2130_PWM_AMPL = 240 ∧ tmc2130_PWM_GRAD = 4 ∧ tmc2130_PWM_FREQ = 2 ∧
      tmc2130_PWM_AUTOSCALE = 1) ∧
    (pwmconf = 247 ∧ pwmconf % 2 ^ 8 = 247 ∧ pwmconf / 2 ^ 8 % 2 ^ 8 = 0 ∧
      pwmconf / 2 ^ 16 % 2 ^ 2 = 0 ∧ pwmconf / 2 ^ 18 % 2 = 0) ∧
    ((Init replay datasheetRegisters 0 (testParams 4) ⟨answer 0x11 0 0 0x40, []⟩
        (testDriver 0)).2 = false ∧
      (transactions (testParams 4).csPin
        (Init replay datasheetRegisters 0 (testParams 4) ⟨answer 0x11 0 0 0x40, []⟩
          (testDriver 0)).1.1.trace)[8]? = some [0xF0, 0x00, 0x00, 0x00, 0xF7]) := by
  decide

end tmc2130
end hal
